import Mathlib

/-!
Verification of the runtime instantiation core
(`crates/runtime/src/instance/allocator.rs`) and the compiler ABI glue
(`crates/cranelift/src/lib.rs`) of this WebAssembly runtime.

Shallow embedding conventions: machine integers are `Nat` with explicit
`% 2 ^ w` where wrap-around matters; raw pointers are abstract `Nat`
addresses; fallible code returns `Except` / `Option`; code that panics is
modelled with `Option` (`none` = panic); stateful code passes an explicit
`Instance` value.  The host is 64-bit (`usize` = `u64`).
-/

namespace Wasmtime

/-- Abstract machine address. -/
abbrev Ptr := Nat

/-- `WASM_PAGE_SIZE` from `wasmtime_environ` (64 KiB). -/
def WASM_PAGE_SIZE : Nat := 65536

/-- The cranelift `ir::TrapCode` values produced by the instantiation core. -/
inductive TrapCode
  | heapOutOfBounds
  | tableOutOfBounds
  deriving DecidableEq

/-- A runtime `Trap` carrying its trap code (`Trap::wasm(code)`). -/
structure Trap where
  code : TrapCode
  deriving DecidableEq

/-- `InstantiationError` from `allocator.rs`; `link` wraps the `LinkError`
message string. -/
inductive InstantiationError
  | resource (msg : String)
  | link (msg : String)
  | trap (t : Trap)
  | limit (n : Nat)
  deriving DecidableEq

/-- A runtime table; `elements` are the (abstract) stored function elements. -/
structure Table where
  elements : List Nat
  deriving DecidableEq

/-- `Table::size`: number of elements. -/
def Table.size (t : Table) : Nat := t.elements.length

/-- A runtime linear memory; `data` is the byte contents. -/
structure Memory where
  data : List Nat
  deriving DecidableEq

/-- `VMMemoryDefinition::current_length`: length in bytes. -/
def Memory.current_length (m : Memory) : Nat := m.data.length

/-- `wasmtime_environ::TableInitializer`: `offset` is a `u32`. -/
structure TableInitializer where
  table_index : Nat
  base : Option Nat
  offset : Nat
  elements : List Nat
  deriving DecidableEq

/-- `wasmtime_environ::MemoryInitializer`: `offset` is a `u64`. -/
structure MemoryInitializer where
  memory_index : Nat
  base : Option Nat
  offset : Nat
  data : List Nat
  deriving DecidableEq

/-- `wasmtime_environ::MemoryInitialization`: either the precomputed paged
map (keyed by defined memory index, each entry a sparse page list) with its
`out_of_bounds` flag, or plain segmented initializers. -/
inductive MemoryInitialization
  | paged (map : List (List (Option (List Nat)))) (out_of_bounds : Bool)
  | segmented (initializers : List MemoryInitializer)
  deriving DecidableEq

/-- `wasmtime_environ::wasm::WasmType`. -/
inductive WasmType
  | i32
  | i64
  | f32
  | f64
  | v128
  | funcRef
  | externRef
  | exnRef
  deriving DecidableEq

/-- `wasmtime_environ::wasm::GlobalInit`.  Constants are represented by
their raw bit patterns as `Nat`. -/
inductive GlobalInit
  | i32Const (x : Nat)
  | i64Const (x : Nat)
  | f32Const (x : Nat)
  | f64Const (x : Nat)
  | v128Const (x : Nat)
  | getGlobal (x : Nat)
  | refFunc (f : Nat)
  | refNullConst
  | importInit
  deriving DecidableEq

/-- A module global descriptor: its Wasm type and initializer expression. -/
structure Global where
  wasm_ty : WasmType
  initializer : GlobalInit
  deriving DecidableEq

/-- The fields of `wasmtime_environ::Module` consumed by the instantiation
core.  `memory64` is the per-memory-index `memory_plans[i].memory.memory64`
flag; `possibly_exported_funcs` holds defined function indices. -/
structure Module where
  functions : List Nat
  num_imported_funcs : Nat
  num_imported_tables : Nat
  num_imported_memories : Nat
  num_imported_globals : Nat
  memory64 : List Bool
  table_initializers : List TableInitializer
  memory_initialization : MemoryInitialization
  globals : List Global
  possibly_exported_funcs : List Nat
  deriving DecidableEq

/-- `Module::defined_global_index`: `None` for imported globals. -/
def Module.defined_global_index (m : Module) (index : Nat) : Option Nat :=
  if index < m.num_imported_globals then none else some (index - m.num_imported_globals)

/-- `Module::defined_func_index`: `None` for imported functions. -/
def Module.defined_func_index (m : Module) (index : Nat) : Option Nat :=
  if index < m.num_imported_funcs then none else some (index - m.num_imported_funcs)

/-- The mutable state of a runtime `Instance` reachable from the
instantiation core: defined tables and memories, the tables and memories
behind the imported descriptors, global storages (each a 128-bit
`VMGlobalDefinition` image as a `Nat`), and the instance's own addresses. -/
structure Instance where
  module : Module
  tables : List Table
  memories : List Memory
  imported_tables : List Table
  imported_memories : List Memory
  defined_globals : List Nat
  imported_globals : List Nat
  vmctx_ptr : Ptr
  anyfunc_base : Ptr
  deriving DecidableEq

/-- `Instance::get_table`: resolves a table index through the imported
prefix, then the defined tables. -/
def Instance.get_table (inst : Instance) (i : Nat) : Table :=
  if i < inst.module.num_imported_tables then inst.imported_tables.getD i ⟨[]⟩
  else inst.tables.getD (i - inst.module.num_imported_tables) ⟨[]⟩

/-- Store back the table resolved by `Instance.get_table`. -/
def Instance.set_table (inst : Instance) (i : Nat) (t : Table) : Instance :=
  if i < inst.module.num_imported_tables then
    { inst with imported_tables := inst.imported_tables.set i t }
  else
    { inst with tables := inst.tables.set (i - inst.module.num_imported_tables) t }

/-- `Instance::get_memory`: resolves a memory index through the imported
prefix, then the defined memories. -/
def Instance.get_memory (inst : Instance) (i : Nat) : Memory :=
  if i < inst.module.num_imported_memories then inst.imported_memories.getD i ⟨[]⟩
  else inst.memories.getD (i - inst.module.num_imported_memories) ⟨[]⟩

/-- Store back the memory resolved by `Instance.get_memory`. -/
def Instance.set_memory (inst : Instance) (i : Nat) (m : Memory) : Instance :=
  if i < inst.module.num_imported_memories then
    { inst with imported_memories := inst.imported_memories.set i m }
  else
    { inst with memories := inst.memories.set (i - inst.module.num_imported_memories) m }

/-- `Instance::memory`: a defined memory, by defined memory index. -/
def Instance.memory (inst : Instance) (def_index : Nat) : Memory :=
  inst.memories.getD def_index ⟨[]⟩

/-- Overwrite a defined memory, by defined memory index. -/
def Instance.set_defined_memory (inst : Instance) (def_index : Nat) (m : Memory) : Instance :=
  { inst with memories := inst.memories.set def_index m }

/-- The storage bits read by `instance.global(def_index)` for defined
globals and by `*instance.imported_global(index).from` for imported ones. -/
def Instance.global_bits (inst : Instance) (index : Nat) : Nat :=
  match inst.module.defined_global_index index with
  | some def_index => inst.defined_globals.getD def_index 0
  | none => inst.imported_globals.getD index 0

/-- `VMGlobalDefinition::as_u32`: the low 32 bits of the storage. -/
def as_u32 (bits : Nat) : Nat := bits % 2 ^ 32

/-- `VMGlobalDefinition::as_u64`: the low 64 bits of the storage. -/
def as_u64 (bits : Nat) : Nat := bits % 2 ^ 64

/-- `u32::checked_add`. -/
def u32_checked_add (a b : Nat) : Option Nat :=
  if a + b < 2 ^ 32 then some (a + b) else none

/-- `u64::checked_add`; also `usize::checked_add` on the 64-bit host. -/
def u64_checked_add (a b : Nat) : Option Nat :=
  if a + b < 2 ^ 64 then some (a + b) else none

/-- `get_table_init_start` from `allocator.rs`: resolve the element segment
base (the global, read with `as_u32`, plus the `u32` offset, checked). -/
def get_table_init_start (init : TableInitializer) (inst : Instance) :
    Except InstantiationError Nat :=
  match init.base with
  | some base =>
    let val := as_u32 (inst.global_bits base)
    match u32_checked_add init.offset val with
    | some s => .ok s
    | none => .error (.link "element segment global base overflows")
  | none => .ok init.offset

/-- `get_memory_init_start` from `allocator.rs`: resolve the data segment
base (the global, read as `u32` for 32-bit memories and as `u64` for 64-bit
memories, plus the `u64` offset, checked). -/
def get_memory_init_start (init : MemoryInitializer) (inst : Instance) :
    Except InstantiationError Nat :=
  match init.base with
  | some base =>
    let mem64 := inst.module.memory64.getD init.memory_index false
    let g := inst.global_bits base
    let val := if mem64 then as_u64 g else as_u32 g
    match u64_checked_add init.offset val with
    | some s => .ok s
    | none => .error (.link "data segment global base overflows")
  | none => .ok init.offset

/-- The loop body of `check_table_init_bounds`, over the remaining
initializers: `start + elements.len()` (usize-checked) must not exceed the
current table size. -/
def check_table_init_bounds_list (inst : Instance) :
    List TableInitializer → Except InstantiationError Unit
  | [] => .ok ()
  | init :: rest =>
    let table := inst.get_table init.table_index
    match get_table_init_start init inst with
    | .error e => .error e
    | .ok start =>
      match u64_checked_add start init.elements.length with
      | some stop =>
        if stop ≤ table.size then check_table_init_bounds_list inst rest
        else .error (.link "table out of bounds: elements segment does not fit")
      | none => .error (.link "table out of bounds: elements segment does not fit")

/-- `check_table_init_bounds` from `allocator.rs`. -/
def check_table_init_bounds (inst : Instance) (module : Module) :
    Except InstantiationError Unit :=
  check_table_init_bounds_list inst module.table_initializers

/-- `check_memory_init_bounds` from `allocator.rs`: `start + data.len()`
(usize-checked) must not exceed the current memory length. -/
def check_memory_init_bounds (inst : Instance) :
    List MemoryInitializer → Except InstantiationError Unit
  | [] => .ok ()
  | init :: rest =>
    let memory := inst.get_memory init.memory_index
    match get_memory_init_start init inst with
    | .error e => .error e
    | .ok start =>
      match u64_checked_add start init.data.length with
      | some stop =>
        if stop ≤ memory.current_length then check_memory_init_bounds inst rest
        else .error (.link "memory out of bounds: data segment does not fit")
      | none => .error (.link "memory out of bounds: data segment does not fit")

/-- `check_init_bounds` from `allocator.rs`: tables first, then either the
paged `out_of_bounds` flag or the segmented memory bounds check.  Note the
source reads `instance.module.memory_initialization` here. -/
def check_init_bounds (inst : Instance) (module : Module) :
    Except InstantiationError Unit :=
  match check_table_init_bounds inst module with
  | .error e => .error e
  | .ok () =>
    match inst.module.memory_initialization with
    | .paged _ out_of_bounds =>
      if out_of_bounds then
        .error (.link "memory out of bounds: data segment does not fit")
      else .ok ()
    | .segmented initializers => check_memory_init_bounds inst initializers

/-- `slice[start .. start + data.length].copy_from_slice(data)` on a byte
list: positions past the end of `l` are dropped (the source would panic
there; every theorem below stays in bounds). -/
def writeAt : List Nat → Nat → List Nat → List Nat
  | [], _, _ => []
  | b :: l, s + 1, data => b :: writeAt l s data
  | b :: l, 0, [] => b :: l
  | _ :: l, 0, d :: data => d :: writeAt l 0 data

/-- Modelled from the spec: `Instance::table_init_segment`
(`crates/runtime/src/instance.rs` is not under `src/`).  Bulk-memory
semantics: an in-bounds segment is copied into the table, an out-of-bounds
one traps with `TableOutOfBounds` and writes nothing.  The source call is
`table_init_segment(table_index, elements, dst = start, src = 0,
len = elements.len())`. -/
def table_init_segment (inst : Instance) (table_index : Nat) (elements : List Nat)
    (start : Nat) : Except Trap Instance :=
  let t := inst.get_table table_index
  if start + elements.length ≤ t.size then
    .ok (inst.set_table table_index ⟨writeAt t.elements start elements⟩)
  else .error ⟨.tableOutOfBounds⟩

/-- Modelled from the spec: `Instance::memory_init_segment`
(`crates/runtime/src/instance.rs` is not under `src/`).  Bulk-memory
semantics: an in-bounds segment is copied into the memory, an out-of-bounds
one traps with `HeapOutOfBounds` and writes nothing. -/
def memory_init_segment (inst : Instance) (memory_index : Nat) (data : List Nat)
    (start : Nat) : Except Trap Instance :=
  let m := inst.get_memory memory_index
  if start + data.length ≤ m.current_length then
    .ok (inst.set_memory memory_index ⟨writeAt m.data start data⟩)
  else .error ⟨.heapOutOfBounds⟩

/-- The loop of `initialize_tables` from `allocator.rs`: apply each element
segment in order, stopping at the first error with the partial state. -/
def initialize_tables_list :
    Instance → List TableInitializer → Instance × Option InstantiationError
  | inst, [] => (inst, none)
  | inst, init :: rest =>
    match get_table_init_start init inst with
    | .error e => (inst, some e)
    | .ok start =>
      match table_init_segment inst init.table_index init.elements start with
      | .error t => (inst, some (.trap t))
      | .ok inst2 => initialize_tables_list inst2 rest

/-- `initialize_tables` from `allocator.rs`. -/
def initialize_tables (inst : Instance) (module : Module) :
    Instance × Option InstantiationError :=
  initialize_tables_list inst module.table_initializers

/-- `initialize_memories` from `allocator.rs`: apply each data segment in
order, stopping at the first error with the partial state. -/
def initialize_memories :
    Instance → List MemoryInitializer → Instance × Option InstantiationError
  | inst, [] => (inst, none)
  | inst, init :: rest =>
    match get_memory_init_start init inst with
    | .error e => (inst, some e)
    | .ok start =>
      match memory_init_segment inst init.memory_index init.data start with
      | .error t => (inst, some (.trap t))
      | .ok inst2 => initialize_memories inst2 rest

/-- The inner page loop of the paged branch of `initialize_instance`:
`for (page_index, page) in pages.iter().enumerate()`, copying each present
page to `page_index * WASM_PAGE_SIZE`. -/
def copy_pages_list : List Nat → Nat → List (Option (List Nat)) → List Nat
  | data, _, [] => data
  | data, page_index, none :: rest => copy_pages_list data (page_index + 1) rest
  | data, page_index, some page :: rest =>
    copy_pages_list (writeAt data (page_index * WASM_PAGE_SIZE) page) (page_index + 1) rest

/-- The outer loop of the paged branch of `initialize_instance`:
`for (index, pages) in map`, over defined memory indices. -/
def initialize_paged_list : Instance → Nat → List (List (Option (List Nat))) → Instance
  | inst, _, [] => inst
  | inst, index, pages :: rest =>
    let memory := inst.memory index
    initialize_paged_list
      (inst.set_defined_memory index ⟨copy_pages_list memory.data 0 pages⟩) (index + 1) rest

/-- `initialize_instance` from `allocator.rs`: without bulk memory, bounds
check everything first; then apply table segments, then either the paged
page copies (trapping afterwards when `out_of_bounds` is set) or the
segmented memory initializers. -/
def initialize_instance (inst : Instance) (module : Module) (is_bulk_memory : Bool) :
    Instance × Option InstantiationError :=
  match (if is_bulk_memory then .ok () else check_init_bounds inst module :
      Except InstantiationError Unit) with
  | .error e => (inst, some e)
  | .ok () =>
    match initialize_tables inst module with
    | (inst2, some e) => (inst2, some e)
    | (inst2, none) =>
      match module.memory_initialization with
      | .paged map out_of_bounds =>
        let inst3 := initialize_paged_list inst2 0 map
        if out_of_bounds then (inst3, some (.trap ⟨.heapOutOfBounds⟩)) else (inst3, none)
      | .segmented initializers => initialize_memories inst2 initializers

/-- `VMFunctionImport`: the `{body, vmctx}` descriptor of an imported
function. -/
structure VMFunctionImport where
  body : Ptr
  vmctx : Ptr
  deriving DecidableEq

/-- `VMCallerCheckedAnyfunc`: the `{func_ptr, type_index, vmctx}` triple. -/
structure VMCallerCheckedAnyfunc where
  func_ptr : Ptr
  type_index : Nat
  vmctx : Ptr
  deriving DecidableEq

/-- `SharedSignatures` from `allocator.rs`. -/
inductive SharedSignatures
  | table (t : List Nat)
  | always (index : Nat)
  | noFunctions
  deriving DecidableEq

/-- `SharedSignatures::lookup`.  The `Table` arm indexes a `PrimaryMap`
(out of range panics, hence `none`); the `None` arm is `unreachable!`. -/
def SharedSignatures.lookup : SharedSignatures → Nat → Option Nat
  | .table t, index => t.get? index
  | .always index, _ => some index
  | .noFunctions, _ => none

/-- The fields of `InstanceAllocationRequest` consumed by the anyfunc loop
of `initialize_vmcontext`: `finished_functions` keyed by defined function
index, the imported function descriptors, and the signature translation. -/
structure InstanceAllocationRequest where
  finished_functions : List Ptr
  import_functions : List VMFunctionImport
  shared_signatures : SharedSignatures
  deriving DecidableEq

/-- One iteration of the function loop in `initialize_vmcontext`: look up
the canonical signature id, then take `(finished_functions[def_index],
self vmctx)` for a defined function or `(import.body, import.vmctx)` for an
imported one.  `none` models the panics of the missing-entry cases. -/
def anyfunc_entry (inst : Instance) (req : InstanceAllocationRequest)
    (index sig : Nat) : Option VMCallerCheckedAnyfunc :=
  match req.shared_signatures.lookup sig with
  | none => none
  | some type_index =>
    match inst.module.defined_func_index index with
    | some def_index =>
      match req.finished_functions.get? def_index with
      | some body => some ⟨body, type_index, inst.vmctx_ptr⟩
      | none => none
    | none =>
      match req.import_functions.get? index with
      | some imp => some ⟨imp.body, type_index, imp.vmctx⟩
      | none => none

/-- The function loop of `initialize_vmcontext`, walking
`instance.module.functions` while the write pointer advances. -/
def initialize_anyfuncs_list (inst : Instance) (req : InstanceAllocationRequest) :
    Nat → List Nat → Option (List VMCallerCheckedAnyfunc)
  | _, [] => some []
  | index, sig :: rest =>
    match anyfunc_entry inst req index sig with
    | none => none
    | some entry =>
      match initialize_anyfuncs_list inst req (index + 1) rest with
      | none => none
      | some entries => some (entry :: entries)

/-- The per-instance anyfunc table written by the `Initialize the
functions` loop of `initialize_vmcontext`. -/
def initialize_anyfuncs (inst : Instance) (req : InstanceAllocationRequest) :
    Option (List VMCallerCheckedAnyfunc) :=
  initialize_anyfuncs_list inst req 0 inst.module.functions

/-- Overwrite the low 32 bits of a 128-bit storage
(`*as_i32_mut() = x` and `*as_f32_bits_mut() = x`). -/
def setLow32 (bits x : Nat) : Nat := bits / 2 ^ 32 * 2 ^ 32 + x % 2 ^ 32

/-- Overwrite the low 64 bits of a 128-bit storage
(`*as_i64_mut() = x`, `*as_f64_bits_mut() = x`, the externref and anyfunc
pointer slots). -/
def setLow64 (bits x : Nat) : Nat := bits / 2 ^ 64 * 2 ^ 64 + x % 2 ^ 64

/-- Modelled from the spec: `Instance::get_caller_checked_anyfunc`
(`crates/runtime/src/instance.rs` is not under `src/`): the address of the
per-instance anyfunc entry for `f`, `none` past the declared functions. -/
def Instance.get_caller_checked_anyfunc (inst : Instance) (f : Nat) : Option Ptr :=
  if f < inst.module.functions.length then some (inst.anyfunc_base + f) else none

/-- One iteration of the loop in `initialize_vmcontext_globals`: the
storage is first zeroed (`ptr::write(to, VMGlobalDefinition::new())`), then
the initializer is evaluated.  `done` holds the already-initialized defined
globals (the source would read uninitialized storage for a forward
reference; the model rejects such a read with `none`); `rc` maps each
externref id to its reference count (id 0 is the null reference).  `none`
models a panic. -/
def initialize_one_global (inst : Instance) (done : List Nat) (rc : Nat → Nat)
    (g : Global) : Option (Nat × (Nat → Nat)) :=
  match g.initializer with
  | .i32Const x => some (setLow32 0 x, rc)
  | .i64Const x => some (setLow64 0 x, rc)
  | .f32Const x => some (setLow32 0 x, rc)
  | .f64Const x => some (setLow64 0 x, rc)
  | .v128Const x => some (x % 2 ^ 128, rc)
  | .getGlobal x =>
    match (match inst.module.defined_global_index x with
      | some def_x => done.get? def_x
      | none => inst.imported_globals.get? x) with
    | none => none
    | some fromBits =>
      match g.wasm_ty with
      | .externRef =>
        some (setLow64 0 (as_u64 fromBits),
          fun i => if i = as_u64 fromBits ∧ as_u64 fromBits ≠ 0 then rc i + 1 else rc i)
      | _ => some (fromBits, rc)
  | .refFunc f =>
    match inst.get_caller_checked_anyfunc f with
    | some p => some (setLow64 0 p, rc)
    | none => none
  | .refNullConst =>
    match g.wasm_ty with
    | .funcRef => some (0, rc)
    | .externRef => some (0, rc)
    | _ => none
  | .importInit => none

/-- The loop of `initialize_vmcontext_globals`, accumulating the defined
global storages in order. -/
def initialize_vmcontext_globals_list (inst : Instance) :
    List Global → List Nat → (Nat → Nat) → Option (List Nat × (Nat → Nat))
  | [], done, rc => some (done, rc)
  | g :: rest, done, rc =>
    match initialize_one_global inst done rc g with
    | none => none
    | some (bits, rc2) => initialize_vmcontext_globals_list inst rest (done ++ [bits]) rc2

/-- `initialize_vmcontext_globals` from `allocator.rs`:
`module.globals.iter().skip(num_imported_globals)`. -/
def initialize_vmcontext_globals (inst : Instance) (rc : Nat → Nat) :
    Option (List Nat × (Nat → Nat)) :=
  initialize_vmcontext_globals_list inst
    (inst.module.globals.drop inst.module.num_imported_globals) [] rc

/-! The compiler ABI glue of `crates/cranelift/src/lib.rs`. -/

/-- The cranelift value types this core produces. -/
inductive CraneliftType
  | i32T
  | i64T
  | f32T
  | f64T
  | i8x16
  | r32
  | r64
  deriving DecidableEq

/-- The cranelift calling conventions this core selects. -/
inductive CallConv
  | fast
  | wasmtimeSystemV
  | wasmtimeFastcall
  | wasmtimeAppleAarch64
  deriving DecidableEq

/-- `target_lexicon::CallingConvention` as matched by `wasmtime_call_conv`;
`other` stands for any further known convention (the `unimplemented!`
arm). -/
inductive CallingConvention
  | systemV
  | windowsFastcall
  | appleAarch64
  | other
  deriving DecidableEq

/-- The two facts this core reads off a `TargetIsa`: its pointer type and
`triple().default_calling_convention()` (`none` models `Err(())`). -/
structure TargetIsa where
  pointer_type : CraneliftType
  default_calling_convention : Option CallingConvention
  deriving DecidableEq

/-- `wasmtime_call_conv` from `lib.rs`; `none` models the `unimplemented!`
panic on other known conventions. -/
def wasmtime_call_conv (isa : TargetIsa) : Option CallConv :=
  match isa.default_calling_convention with
  | some .appleAarch64 => some .wasmtimeAppleAarch64
  | some .systemV => some .wasmtimeSystemV
  | none => some .wasmtimeSystemV
  | some .windowsFastcall => some .wasmtimeFastcall
  | some .other => none

/-- Modelled from the spec: `wasmtime_environ::reference_type` (not under
`src/`) — funcref and externref lower to a pointer-sized reference type. -/
def reference_type (pointer_type : CraneliftType) : CraneliftType :=
  match pointer_type with
  | .i32T => .r32
  | _ => .r64

/-- `value_type` from `lib.rs`; `none` models the `unimplemented!` panic on
exception references. -/
def value_type (isa : TargetIsa) : WasmType → Option CraneliftType
  | .i32 => some .i32T
  | .i64 => some .i64T
  | .f32 => some .f32T
  | .f64 => some .f64T
  | .v128 => some .i8x16
  | .funcRef => some (reference_type isa.pointer_type)
  | .externRef => some (reference_type isa.pointer_type)
  | .exnRef => none

/-- `ir::ArgumentPurpose`: only `Normal` and `VMContext` are used here. -/
inductive ArgumentPurpose
  | normal
  | vmContext
  deriving DecidableEq

/-- `ir::AbiParam`. -/
structure AbiParam where
  value_type : CraneliftType
  purpose : ArgumentPurpose
  deriving DecidableEq

/-- `AbiParam::new`: a normal parameter. -/
def AbiParam.new (t : CraneliftType) : AbiParam := ⟨t, .normal⟩

/-- `AbiParam::special`. -/
def AbiParam.special (t : CraneliftType) (p : ArgumentPurpose) : AbiParam := ⟨t, p⟩

/-- `ir::Signature`. -/
structure Signature where
  params : List AbiParam
  returns : List AbiParam
  call_conv : CallConv
  deriving DecidableEq

/-- `blank_sig` from `lib.rs`: the caller/callee `vmctx` parameters. -/
def blank_sig (isa : TargetIsa) (call_conv : CallConv) : Signature :=
  { params := [AbiParam.special isa.pointer_type .vmContext, AbiParam.new isa.pointer_type],
    returns := [], call_conv := call_conv }

/-- `cranelift_wasm::WasmFuncType`. -/
structure WasmFuncType where
  params : List WasmType
  returns : List WasmType
  deriving DecidableEq

/-- `push_types` from `lib.rs`: append the converted Wasm parameter and
result types; `none` when any conversion panics. -/
def push_types (isa : TargetIsa) (sig : Signature) (wasm : WasmFuncType) :
    Option Signature :=
  match wasm.params.mapM (fun t => (value_type isa t).map AbiParam.new),
      wasm.returns.mapM (fun t => (value_type isa t).map AbiParam.new) with
  | some ps, some rs =>
    some { sig with params := sig.params ++ ps, returns := sig.returns ++ rs }
  | _, _ => none

/-- The field of `wasmtime_environ::TypeTables` used here. -/
structure TypeTables where
  wasm_signatures : List WasmFuncType
  deriving DecidableEq

/-- `indirect_signature` from `lib.rs`. -/
def indirect_signature (isa : TargetIsa) (wasm : WasmFuncType) : Option Signature :=
  match wasmtime_call_conv isa with
  | none => none
  | some cc => push_types isa (blank_sig isa cc) wasm

/-- The `let call_conv = match ...` binding at the head of
`func_signature`: `Fast` for a defined, never-exported function, the
default wasmtime convention otherwise. -/
def func_call_conv (isa : TargetIsa) (module : Module) (index : Nat) : Option CallConv :=
  match module.defined_func_index index with
  | some idx =>
    if module.possibly_exported_funcs.contains idx then wasmtime_call_conv isa
    else some .fast
  | none => wasmtime_call_conv isa

/-- `func_signature` from `lib.rs`. -/
def func_signature (isa : TargetIsa) (module : Module) (types : TypeTables)
    (index : Nat) : Option Signature :=
  match func_call_conv isa module index with
  | none => none
  | some call_conv =>
    match module.functions.get? index with
    | none => none
    | some sig_index =>
      match types.wasm_signatures.get? sig_index with
      | none => none
      | some wasm => push_types isa (blank_sig isa call_conv) wasm

/-! The interrupt / stack-limit protocol.  The compiled prologue and the
trap handler live in the cranelift backend and `traphandlers.rs`, neither
of which is under `src/`; the definitions below are modelled from the spec
(and the crate documentation of `crates/cranelift/src/lib.rs`). -/

/-- Modelled from the spec: the fixed constant `N` (32 KiB) agreed between
compiler and runtime. -/
def interrupt_threshold : Nat := 32 * 1024

/-- `usize::max_value()` on the 64-bit host. -/
def usize_max : Nat := 2 ^ 64 - 1

/-- Modelled from the spec: the interrupt sentinel `MAX - N`. -/
def interrupt_sentinel : Nat := usize_max - interrupt_threshold

/-- `VMInterrupts`: its first word is the shared stack limit. -/
structure VMInterrupts where
  stack_limit : Nat
  deriving DecidableEq

/-- Modelled from the spec: the prologue / loop-header check of every
compiled function traps when the stack pointer is below `stack_limit`. -/
def stack_check_traps (interrupts : VMInterrupts) (sp : Nat) : Bool :=
  decide (sp < interrupts.stack_limit)

/-- Modelled from the spec: interrupt injection is a single store of the
sentinel to the shared word, by any thread. -/
def interrupt (_interrupts : VMInterrupts) : VMInterrupts :=
  { stack_limit := interrupt_sentinel }

/-- The label the trap handler reports for a fired stack-overflow trap. -/
inductive TrapReason
  | stackOverflow
  | interrupted
  deriving DecidableEq

/-- Modelled from the spec: post-trap disambiguation — a stack-overflow
trap is relabeled as interrupted exactly when `stack_limit` holds the
sentinel. -/
def relabel_stack_overflow (interrupts : VMInterrupts) : TrapReason :=
  if interrupts.stack_limit = interrupt_sentinel then .interrupted else .stackOverflow

/-! Sample inputs used by witnesses and counterexamples. -/

/-- An empty module skeleton for building samples. -/
def emptyModule : Module :=
  { functions := [], num_imported_funcs := 0, num_imported_tables := 0,
    num_imported_memories := 0, num_imported_globals := 0, memory64 := [],
    table_initializers := [], memory_initialization := .segmented [],
    globals := [], possibly_exported_funcs := [] }

/-- An instance skeleton over a module. -/
def emptyInstance (m : Module) : Instance :=
  { module := m, tables := [], memories := [], imported_tables := [],
    imported_memories := [], defined_globals := [], imported_globals := [],
    vmctx_ptr := 1, anyfunc_base := 1000 }

/-- Sample ISA: 64-bit pointers, SystemV default convention. -/
def sampleIsa : TargetIsa := ⟨.i64T, some .systemV⟩

/-- Sample module for the signature claims: one defined function of
signature 0, never exported. -/
def sigModule : Module := { emptyModule with functions := [0] }

/-- Sample type tables: signature 0 is `(i32, f64) -> i64`. -/
def sigTypes : TypeTables := ⟨[⟨[.i32, .f64], [.i64]⟩]⟩

/-- The signature `func_signature` synthesizes for `sigModule` function 0
on `sampleIsa`. -/
def sigResult : Signature :=
  { params := [AbiParam.special .i64T .vmContext, AbiParam.new .i64T,
      AbiParam.new .i32T, AbiParam.new .f64T],
    returns := [AbiParam.new .i64T], call_conv := .fast }

/-- Sample module for the anyfunc claim: one imported and one defined
function, both of signature 0. -/
def c3Module : Module := { emptyModule with functions := [0, 0], num_imported_funcs := 1 }

/-- Sample instance for the anyfunc claim (its `vmctx_ptr` is 1). -/
def c3Inst : Instance := emptyInstance c3Module

/-- Sample allocation request: one finished function at 100, one imported
function `{body := 50, vmctx := 7}`, signature table `[5]`. -/
def c3Req : InstanceAllocationRequest := ⟨[100], [⟨50, 7⟩], .table [5]⟩

/-- Sample module for the global-initializer claims: one defined `i32`
global initialized by `RefNullConst`. -/
def c10Module : Module := { emptyModule with globals := [⟨.i32, .refNullConst⟩] }

/-- Sample instance for the global-initializer claims. -/
def c10Inst : Instance := emptyInstance c10Module

/-- Sample module for the global-initialization claim: one imported global
and four defined ones exercising the initializer arms. -/
def c7Module : Module :=
  { emptyModule with
    num_imported_globals := 1, functions := [0],
    globals := [⟨.i64, .importInit⟩, ⟨.i32, .i32Const 7⟩, ⟨.i64, .getGlobal 0⟩,
      ⟨.funcRef, .refFunc 0⟩, ⟨.externRef, .refNullConst⟩] }

/-- Sample instance for the global-initialization claim: the imported
global holds 42. -/
def c7Inst : Instance := { emptyInstance c7Module with imported_globals := [42] }

/-- The base of a table initializer resolves. -/
def table_start_ok (inst : Instance) (init : TableInitializer) : Prop :=
  ∃ s, get_table_init_start init inst = .ok s

/-- The base of a memory initializer resolves. -/
def memory_start_ok (inst : Instance) (init : MemoryInitializer) : Prop :=
  ∃ s, get_memory_init_start init inst = .ok s

/-- A table element segment fits its table (the bulk-memory per-segment
bound used by `table_init_segment`). -/
def table_seg_fits (inst : Instance) (init : TableInitializer) : Prop :=
  ∃ s, get_table_init_start init inst = .ok s ∧
    s + init.elements.length ≤ (inst.get_table init.table_index).size

/-- A memory data segment fits its memory (the bulk-memory per-segment
bound used by `memory_init_segment`). -/
def memory_seg_fits (inst : Instance) (init : MemoryInitializer) : Prop :=
  ∃ s, get_memory_init_start init inst = .ok s ∧
    s + init.data.length ≤ (inst.get_memory init.memory_index).current_length

/-- A table element segment passes the strict check of
`check_table_init_bounds` (usize-checked end within the table size). -/
def table_init_in_bounds (inst : Instance) (init : TableInitializer) : Prop :=
  ∃ s, get_table_init_start init inst = .ok s ∧
    s + init.elements.length < 2 ^ 64 ∧
    s + init.elements.length ≤ (inst.get_table init.table_index).size

/-- A memory data segment passes the strict check of
`check_memory_init_bounds`. -/
def memory_init_in_bounds (inst : Instance) (init : MemoryInitializer) : Prop :=
  ∃ s, get_memory_init_start init inst = .ok s ∧
    s + init.data.length < 2 ^ 64 ∧
    s + init.data.length ≤ (inst.get_memory init.memory_index).current_length

/-- Sample module for the strict/bulk claim: one out-of-bounds element
segment over a one-element table, segmented memory form. -/
def c1Module : Module :=
  { emptyModule with table_initializers := [⟨0, none, 5, [9]⟩] }

/-- Sample instance for the strict/bulk claim. -/
def c1Inst : Instance := { emptyInstance c1Module with tables := [⟨[0]⟩] }

/-- Sample page image: 64 KiB of byte 170. -/
def c2Page : List Nat := List.replicate WASM_PAGE_SIZE 170

/-- Sample paged module: one present page for memory 0 and the
`out_of_bounds` flag set. -/
def c2Module : Module :=
  { emptyModule with
    memory64 := [false], memory_initialization := .paged [[some c2Page]] true }

/-- Sample instance for the paged claim: one zeroed page of memory. -/
def c2Inst : Instance :=
  { emptyInstance c2Module with memories := [⟨List.replicate WASM_PAGE_SIZE 0⟩] }

/-- Sample module for the ordering claim: one out-of-bounds data segment
over an empty memory. -/
def c9Module : Module :=
  { emptyModule with memory_initialization := .segmented [⟨0, none, 0, [1]⟩] }

/-- Sample instance for the ordering claim. -/
def c9Inst : Instance := { emptyInstance c9Module with memories := [⟨[]⟩] }

/-! Helper lemmas shared across the claim theorems. -/

/-- `push_types` leaves the calling convention untouched. -/
theorem push_types_call_conv {isa : TargetIsa} {s s2 : Signature} {w : WasmFuncType}
    (h : push_types isa s w = some s2) : s2.call_conv = s.call_conv := by
  unfold push_types at h
  split at h
  · cases h
    rfl
  · cases h

/-- `push_types` appends the converted types to the given signature. -/
theorem push_types_eq {isa : TargetIsa} {s s2 : Signature} {w : WasmFuncType}
    (h : push_types isa s w = some s2) :
    ∃ ps rs, w.params.mapM (fun t => (value_type isa t).map AbiParam.new) = some ps ∧
      w.returns.mapM (fun t => (value_type isa t).map AbiParam.new) = some rs ∧
      s2.params = s.params ++ ps ∧ s2.returns = s.returns ++ rs := by
  unfold push_types at h
  split at h
  · cases h
    exact ⟨_, _, by assumption, by assumption, rfl, rfl⟩
  · cases h

/-- `wasmtime_call_conv` never selects the fast convention. -/
theorem wasmtime_call_conv_ne_fast {isa : TargetIsa} {cc : CallConv}
    (h : wasmtime_call_conv isa = some cc) : cc ≠ .fast := by
  unfold wasmtime_call_conv at h
  split at h <;> first | (cases h; intro hc; cases hc) | cases h

/-- Success of `func_signature` decomposed into its pieces. -/
theorem func_signature_eq {isa : TargetIsa} {module : Module} {types : TypeTables}
    {index : Nat} {sig : Signature}
    (h : func_signature isa module types index = some sig) :
    ∃ cc sig_index wasm,
      func_call_conv isa module index = some cc ∧
      module.functions.get? index = some sig_index ∧
      types.wasm_signatures.get? sig_index = some wasm ∧
      push_types isa (blank_sig isa cc) wasm = some sig := by
  unfold func_signature at h
  split at h
  · cases h
  · split at h
    · cases h
    · split at h
      · cases h
      · exact ⟨_, _, _, by assumption, by assumption, by assumption, h⟩

/-- Elements located by `get?` are members of the list. -/
theorem mem_of_get?_eq_some {α : Type} :
    ∀ (l : List α) (n : Nat) (a : α), l.get? n = some a → a ∈ l
  | [], n, a, h => by cases h
  | b :: l, 0, a, h => by cases h; exact List.mem_cons_self b l
  | b :: l, n + 1, a, h => List.mem_cons_of_mem b (mem_of_get?_eq_some l n a h)

/-- If some global in the list fails under every intermediate state, the
whole loop fails. -/
theorem initialize_vmcontext_globals_list_none {inst : Instance} {g : Global}
    (hfail : ∀ done rc, initialize_one_global inst done rc g = none) :
    ∀ (l : List Global) (done : List Nat) (rc : Nat → Nat), g ∈ l →
      initialize_vmcontext_globals_list inst l done rc = none := by
  intro l
  induction l with
  | nil => intro done rc hg; cases hg
  | cons hd tl ih =>
    intro done rc hg
    unfold initialize_vmcontext_globals_list
    rcases List.mem_cons.mp hg with hg | hg
    · subst hg
      rw [hfail done rc]
    · cases hstep : initialize_one_global inst done rc hd with
      | none => rfl
      | some p => exact ih (done ++ [p.1]) p.2 hg

/-- A `get?` hit inside a `take` is a hit in the list, before the cut. -/
theorem get?_take_eq_some {α : Type} :
    ∀ (l : List α) (n m : Nat) (a : α),
      (l.take n).get? m = some a → m < n ∧ l.get? m = some a
  | _, 0, _, _, h => by cases h
  | [], n + 1, m, a, h => by cases h
  | b :: l, n + 1, 0, a, h => by cases h; exact ⟨Nat.succ_pos n, rfl⟩
  | b :: l, n + 1, m + 1, a, h => by
    obtain ⟨h1, h2⟩ := get?_take_eq_some l n m a h
    exact ⟨Nat.succ_lt_succ h1, h2⟩

/-- The global-initializer loop grows `done` by one storage per global, and
each storage is produced by `initialize_one_global` run against the already
initialized prefix. -/
theorem initialize_vmcontext_globals_list_spec {inst : Instance} :
    ∀ (l : List Global) (done : List Nat) (rc : Nat → Nat) (defs : List Nat)
      (rc2 : Nat → Nat),
      initialize_vmcontext_globals_list inst l done rc = some (defs, rc2) →
      ∃ post : List Nat, defs = done ++ post ∧ post.length = l.length ∧
        ∀ j g, l.get? j = some g →
          ∃ bits rcj rcj2,
            initialize_one_global inst (done ++ post.take j) rcj g = some (bits, rcj2) ∧
            post.get? j = some bits
  | [], done, rc, defs, rc2, h => by
    obtain ⟨h1, -⟩ := Prod.mk.injEq .. ▸ Option.some.inj h
    subst h1
    exact ⟨[], by simp, rfl, fun j g hg => by cases hg⟩
  | g :: rest, done, rc, defs, rc2, h => by
    unfold initialize_vmcontext_globals_list at h
    cases hstep : initialize_one_global inst done rc g with
    | none => rw [hstep] at h; cases h
    | some p =>
      rw [hstep] at h
      obtain ⟨post, hdefs, hlen, hsteps⟩ :=
        initialize_vmcontext_globals_list_spec rest (done ++ [p.1]) p.2 defs rc2 h
      refine ⟨p.1 :: post, by simpa using hdefs, by simpa using hlen, ?_⟩
      intro j g2 hg2
      cases j with
      | zero =>
        cases hg2
        exact ⟨p.1, rc, p.2, by simpa using hstep, rfl⟩
      | succ j =>
        obtain ⟨bits, rcj, rcj2, hone, hget⟩ := hsteps j g2 hg2
        refine ⟨bits, rcj, rcj2, ?_, hget⟩
        have harr : done ++ (p.1 :: post).take (j + 1) = (done ++ [p.1]) ++ post.take j := by
          simp
        rw [harr]
        exact hone

/-- Per-index description of the anyfunc loop. -/
theorem initialize_anyfuncs_list_get {inst : Instance} {req : InstanceAllocationRequest} :
    ∀ (l : List Nat) (j : Nat) (afs : List VMCallerCheckedAnyfunc),
      initialize_anyfuncs_list inst req j l = some afs →
      afs.length = l.length ∧
        ∀ i, afs.get? i = (l.get? i).bind (fun sig => anyfunc_entry inst req (j + i) sig)
  | [], j, afs, h => by
    cases h
    exact ⟨rfl, fun i => by cases i <;> rfl⟩
  | sig :: rest, j, afs, h => by
    unfold initialize_anyfuncs_list at h
    cases he : anyfunc_entry inst req j sig with
    | none => rw [he] at h; cases h
    | some entry =>
      rw [he] at h
      cases hr : initialize_anyfuncs_list inst req (j + 1) rest with
      | none => rw [hr] at h; cases h
      | some entries =>
        rw [hr] at h
        cases h
        obtain ⟨hlen, hget⟩ := initialize_anyfuncs_list_get rest (j + 1) entries hr
        refine ⟨by simp [hlen], fun i => ?_⟩
        cases i with
        | zero => simpa using he.symm
        | succ i =>
          have := hget i
          simpa [Nat.add_assoc, Nat.add_comm 1 i] using this

/-- `List.set` described through `getD`. -/
theorem getD_set {α : Type} :
    ∀ (l : List α) (j : Nat) (a : α) (i : Nat) (d : α),
      (l.set j a).getD i d = if i = j ∧ j < l.length then a else l.getD i d
  | [], j, a, i, d => by simp
  | b :: l, 0, a, 0, d => by simp
  | b :: l, 0, a, i + 1, d => by simp
  | b :: l, j + 1, a, 0, d => by simp
  | b :: l, j + 1, a, i + 1, d => by
    show (l.set j a).getD i d = _
    rw [getD_set l j a i d]
    simp only [List.length_cons, List.getD_cons_succ]
    by_cases h : i = j ∧ j < l.length
    · rw [if_pos h, if_pos ⟨by omega, by omega⟩]
    · rw [if_neg h, if_neg (by omega)]

/-- `getD` past the end yields the default. -/
theorem getD_of_length_le {α : Type} :
    ∀ (l : List α) (i : Nat) (d : α), l.length ≤ i → l.getD i d = d
  | [], _, _, _ => rfl
  | b :: l, i + 1, d, h => getD_of_length_le l i d (by simpa using h)

/-- `writeAt` preserves the length. -/
theorem writeAt_length : ∀ (l : List Nat) (s : Nat) (d : List Nat),
    (writeAt l s d).length = l.length
  | [], _, _ => rfl
  | b :: l, s + 1, d => by simp [writeAt, writeAt_length l s d]
  | _ :: _, 0, [] => rfl
  | b :: l, 0, x :: d => by simp [writeAt, writeAt_length l 0 d]

/-- `writeAt` described through `getD`. -/
theorem writeAt_getD : ∀ (l : List Nat) (s : Nat) (d : List Nat) (i : Nat),
    (writeAt l s d).getD i 0 =
      if s ≤ i ∧ i < s + d.length ∧ i < l.length then d.getD (i - s) 0 else l.getD i 0
  | [], s, d, i => by
    rw [writeAt, if_neg (by simp)]
  | b :: l, s + 1, d, i => by
    rw [writeAt]
    cases i with
    | zero =>
      rw [if_neg (by omega)]
      rfl
    | succ i =>
      simp only [List.getD_cons_succ, List.length_cons]
      rw [writeAt_getD l s d i]
      by_cases hc : s ≤ i ∧ i < s + d.length ∧ i < l.length
      · rw [if_pos hc, if_pos (by omega)]
        congr 1
        omega
      · rw [if_neg hc, if_neg (by omega)]
  | b :: l, 0, [], i => by
    rw [writeAt, if_neg (by simp)]
  | b :: l, 0, x :: d, i => by
    rw [writeAt]
    cases i with
    | zero =>
      rw [if_pos ⟨Nat.le_refl 0, by simp, by simp⟩]
      rfl
    | succ i =>
      simp only [List.getD_cons_succ, List.length_cons, Nat.sub_zero]
      rw [writeAt_getD l 0 d i]
      simp only [Nat.sub_zero, Nat.zero_add]
      by_cases hc : i < d.length ∧ i < l.length
      · rw [if_pos ⟨Nat.zero_le i, hc.1, hc.2⟩, if_pos (by omega)]
      · rw [if_neg (by omega), if_neg (by omega)]

/-- Copying pages into an empty byte list is a no-op. -/
theorem copy_pages_list_nil : ∀ (pages : List (Option (List Nat))) (pi : Nat),
    copy_pages_list [] pi pages = []
  | [], _ => rfl
  | none :: rest, pi => copy_pages_list_nil rest (pi + 1)
  | some page :: rest, pi => by
    simp only [copy_pages_list, writeAt]
    exact copy_pages_list_nil rest (pi + 1)

/-- `copy_pages_list` preserves the length. -/
theorem copy_pages_list_length :
    ∀ (pages : List (Option (List Nat))) (data : List Nat) (pi : Nat),
      (copy_pages_list data pi pages).length = data.length
  | [], _, _ => rfl
  | none :: rest, data, pi => copy_pages_list_length rest data (pi + 1)
  | some page :: rest, data, pi => by
    simp only [copy_pages_list]
    rw [copy_pages_list_length rest _ (pi + 1), writeAt_length]

/-- Bytes below the next page index are untouched by `copy_pages_list`. -/
theorem copy_pages_list_getD_lt :
    ∀ (pages : List (Option (List Nat))) (data : List Nat) (pi i : Nat),
      i < pi * WASM_PAGE_SIZE →
      (copy_pages_list data pi pages).getD i 0 = data.getD i 0
  | [], _, _, _, _ => rfl
  | none :: rest, data, pi, i, h => by
    simp only [copy_pages_list]
    exact copy_pages_list_getD_lt rest data (pi + 1) i
      (by simp only [WASM_PAGE_SIZE] at h ⊢; omega)
  | some page :: rest, data, pi, i, h => by
    simp only [copy_pages_list]
    rw [copy_pages_list_getD_lt rest _ (pi + 1) i
      (by simp only [WASM_PAGE_SIZE] at h ⊢; omega)]
    rw [writeAt_getD, if_neg (by omega)]

/-- A present page is observable verbatim after `copy_pages_list`. -/
theorem copy_pages_list_getD_hit :
    ∀ (pages : List (Option (List Nat))) (data : List Nat) (pi j : Nat)
      (page : List Nat) (o : Nat),
      pages.get? j = some (some page) → page.length = WASM_PAGE_SIZE →
      o < WASM_PAGE_SIZE → (pi + j + 1) * WASM_PAGE_SIZE ≤ data.length →
      (copy_pages_list data pi pages).getD ((pi + j) * WASM_PAGE_SIZE + o) 0 =
        page.getD o 0
  | [], _, _, _, _, _, hj, _, _, _ => by cases hj
  | none :: rest, data, pi, 0, page, o, hj, _, _, _ => by cases hj
  | some p :: rest, data, pi, 0, page, o, hj, hlen, ho, hfit => by
    obtain rfl : p = page := Option.some.inj (Option.some.inj hj)
    simp only [copy_pages_list]
    rw [copy_pages_list_getD_lt rest _ (pi + 1) _
      (by simp only [WASM_PAGE_SIZE] at ho ⊢; omega)]
    rw [writeAt_getD]
    simp only [WASM_PAGE_SIZE] at ho hfit hlen ⊢
    rw [if_pos ⟨by omega, by omega, by omega⟩]
    congr 1
    omega
  | none :: rest, data, pi, j + 1, page, o, hj, hlen, ho, hfit => by
    simp only [copy_pages_list]
    have hrec := copy_pages_list_getD_hit rest data (pi + 1) j page o hj hlen ho
      (by simp only [WASM_PAGE_SIZE] at hfit ⊢; omega)
    have harith : pi + 1 + j = pi + (j + 1) := by omega
    rw [harith] at hrec
    exact hrec
  | some p :: rest, data, pi, j + 1, page, o, hj, hlen, ho, hfit => by
    simp only [copy_pages_list]
    have hrec := copy_pages_list_getD_hit rest (writeAt data (pi * WASM_PAGE_SIZE) p)
      (pi + 1) j page o hj hlen ho
      (by rw [writeAt_length]; simp only [WASM_PAGE_SIZE] at hfit ⊢; omega)
    have harith : pi + 1 + j = pi + (j + 1) := by omega
    rw [harith] at hrec
    exact hrec

/-- `set_table` leaves every field but the table stores unchanged. -/
theorem set_table_env (inst : Instance) (i : Nat) (t : Table) :
    (inst.set_table i t).module = inst.module ∧
    (inst.set_table i t).memories = inst.memories ∧
    (inst.set_table i t).imported_memories = inst.imported_memories ∧
    (inst.set_table i t).defined_globals = inst.defined_globals ∧
    (inst.set_table i t).imported_globals = inst.imported_globals := by
  unfold Instance.set_table
  split <;> exact ⟨rfl, rfl, rfl, rfl, rfl⟩

/-- `set_memory` leaves every field but the memory stores unchanged. -/
theorem set_memory_env (inst : Instance) (i : Nat) (m : Memory) :
    (inst.set_memory i m).module = inst.module ∧
    (inst.set_memory i m).tables = inst.tables ∧
    (inst.set_memory i m).imported_tables = inst.imported_tables ∧
    (inst.set_memory i m).defined_globals = inst.defined_globals ∧
    (inst.set_memory i m).imported_globals = inst.imported_globals := by
  unfold Instance.set_memory
  split <;> exact ⟨rfl, rfl, rfl, rfl, rfl⟩

/-- Writing back a table of unchanged size preserves every table size. -/
theorem get_table_size_set_table (inst : Instance) (j : Nat) (t : Table)
    (ht : t.size = (inst.get_table j).size) (i : Nat) :
    ((inst.set_table j t).get_table i).size = (inst.get_table i).size := by
  unfold Instance.get_table at ht ⊢
  unfold Instance.set_table
  by_cases hj : j < inst.module.num_imported_tables
  · rw [if_pos hj] at ht
    rw [if_pos hj]
    dsimp only
    by_cases hi : i < inst.module.num_imported_tables
    · rw [if_pos hi, if_pos hi, getD_set]
      by_cases hij : i = j ∧ j < inst.imported_tables.length
      · rw [if_pos hij]
        rw [hij.1]
        exact ht
      · rw [if_neg hij]
    · rw [if_neg hi, if_neg hi]
  · rw [if_neg hj] at ht
    rw [if_neg hj]
    dsimp only
    by_cases hi : i < inst.module.num_imported_tables
    · rw [if_pos hi, if_pos hi]
    · rw [if_neg hi, if_neg hi, getD_set]
      by_cases hij : i - inst.module.num_imported_tables =
          j - inst.module.num_imported_tables ∧
          j - inst.module.num_imported_tables < inst.tables.length
      · rw [if_pos hij, hij.1]
        exact ht
      · rw [if_neg hij]

/-- Writing back a memory of unchanged length preserves every memory
length. -/
theorem get_memory_length_set_memory (inst : Instance) (j : Nat) (m : Memory)
    (hm : m.current_length = (inst.get_memory j).current_length) (i : Nat) :
    ((inst.set_memory j m).get_memory i).current_length =
      (inst.get_memory i).current_length := by
  unfold Instance.get_memory at hm ⊢
  unfold Instance.set_memory
  by_cases hj : j < inst.module.num_imported_memories
  · rw [if_pos hj] at hm
    rw [if_pos hj]
    dsimp only
    by_cases hi : i < inst.module.num_imported_memories
    · rw [if_pos hi, if_pos hi, getD_set]
      by_cases hij : i = j ∧ j < inst.imported_memories.length
      · rw [if_pos hij, hij.1]
        exact hm
      · rw [if_neg hij]
    · rw [if_neg hi, if_neg hi]
  · rw [if_neg hj] at hm
    rw [if_neg hj]
    dsimp only
    by_cases hi : i < inst.module.num_imported_memories
    · rw [if_pos hi, if_pos hi]
    · rw [if_neg hi, if_neg hi, getD_set]
      by_cases hij : i - inst.module.num_imported_memories =
          j - inst.module.num_imported_memories ∧
          j - inst.module.num_imported_memories < inst.memories.length
      · rw [if_pos hij, hij.1]
        exact hm
      · rw [if_neg hij]

/-- Step equation: a fitting element segment updates one table. -/
theorem initialize_tables_list_cons_ok {inst : Instance} {init : TableInitializer}
    {rest : List TableInitializer} {s : Nat}
    (hs : get_table_init_start init inst = .ok s)
    (hfit : s + init.elements.length ≤ (inst.get_table init.table_index).size) :
    initialize_tables_list inst (init :: rest) =
      initialize_tables_list
        (inst.set_table init.table_index
          ⟨writeAt (inst.get_table init.table_index).elements s init.elements⟩) rest := by
  simp only [initialize_tables_list, hs, table_init_segment]
  rw [if_pos hfit]

/-- Step equation: an out-of-bounds element segment traps in place. -/
theorem initialize_tables_list_cons_oob {inst : Instance} {init : TableInitializer}
    {rest : List TableInitializer} {s : Nat}
    (hs : get_table_init_start init inst = .ok s)
    (hfit : ¬ s + init.elements.length ≤ (inst.get_table init.table_index).size) :
    initialize_tables_list inst (init :: rest) =
      (inst, some (.trap ⟨.tableOutOfBounds⟩)) := by
  simp only [initialize_tables_list, hs, table_init_segment]
  rw [if_neg hfit]

/-- Step equation: a failing base resolution stops the table loop. -/
theorem initialize_tables_list_cons_err {inst : Instance} {init : TableInitializer}
    {rest : List TableInitializer} {e : InstantiationError}
    (hs : get_table_init_start init inst = .error e) :
    initialize_tables_list inst (init :: rest) = (inst, some e) := by
  simp only [initialize_tables_list, hs]

/-- Step equation: a fitting data segment updates one memory. -/
theorem initialize_memories_cons_ok {inst : Instance} {init : MemoryInitializer}
    {rest : List MemoryInitializer} {s : Nat}
    (hs : get_memory_init_start init inst = .ok s)
    (hfit : s + init.data.length ≤ (inst.get_memory init.memory_index).current_length) :
    initialize_memories inst (init :: rest) =
      initialize_memories
        (inst.set_memory init.memory_index
          ⟨writeAt (inst.get_memory init.memory_index).data s init.data⟩) rest := by
  simp only [initialize_memories, hs, memory_init_segment]
  rw [if_pos hfit]

/-- Step equation: an out-of-bounds data segment traps in place. -/
theorem initialize_memories_cons_oob {inst : Instance} {init : MemoryInitializer}
    {rest : List MemoryInitializer} {s : Nat}
    (hs : get_memory_init_start init inst = .ok s)
    (hfit : ¬ s + init.data.length ≤ (inst.get_memory init.memory_index).current_length) :
    initialize_memories inst (init :: rest) =
      (inst, some (.trap ⟨.heapOutOfBounds⟩)) := by
  simp only [initialize_memories, hs, memory_init_segment]
  rw [if_neg hfit]

/-- Step equation: a failing base resolution stops the memory loop. -/
theorem initialize_memories_cons_err {inst : Instance} {init : MemoryInitializer}
    {rest : List MemoryInitializer} {e : InstantiationError}
    (hs : get_memory_init_start init inst = .error e) :
    initialize_memories inst (init :: rest) = (inst, some e) := by
  simp only [initialize_memories, hs]

/-- The table loop touches only the table stores, and preserves all table
sizes. -/
theorem initialize_tables_list_env :
    ∀ (l : List TableInitializer) (inst : Instance),
      (initialize_tables_list inst l).fst.module = inst.module ∧
      (initialize_tables_list inst l).fst.memories = inst.memories ∧
      (initialize_tables_list inst l).fst.imported_memories = inst.imported_memories ∧
      (initialize_tables_list inst l).fst.defined_globals = inst.defined_globals ∧
      (initialize_tables_list inst l).fst.imported_globals = inst.imported_globals ∧
      ∀ i, ((initialize_tables_list inst l).fst.get_table i).size =
        (inst.get_table i).size
  | [], inst => ⟨rfl, rfl, rfl, rfl, rfl, fun _ => rfl⟩
  | init :: rest, inst => by
    cases hs : get_table_init_start init inst with
    | error e =>
      rw [initialize_tables_list_cons_err hs]
      exact ⟨rfl, rfl, rfl, rfl, rfl, fun _ => rfl⟩
    | ok s =>
      by_cases hfit : s + init.elements.length ≤ (inst.get_table init.table_index).size
      · rw [initialize_tables_list_cons_ok hs hfit]
        obtain ⟨h1, h2, h3, h4, h5, h6⟩ := initialize_tables_list_env rest
          (inst.set_table init.table_index
            ⟨writeAt (inst.get_table init.table_index).elements s init.elements⟩)
        obtain ⟨e1, e2, e3, e4, e5⟩ := set_table_env inst init.table_index
          ⟨writeAt (inst.get_table init.table_index).elements s init.elements⟩
        have hts : (⟨writeAt (inst.get_table init.table_index).elements s
            init.elements⟩ : Table).size = (inst.get_table init.table_index).size := by
          simp [Table.size, writeAt_length]
        exact ⟨h1.trans e1, h2.trans e2, h3.trans e3, h4.trans e4, h5.trans e5,
          fun i => (h6 i).trans (get_table_size_set_table inst init.table_index _ hts i)⟩
      · rw [initialize_tables_list_cons_oob hs hfit]
        exact ⟨rfl, rfl, rfl, rfl, rfl, fun _ => rfl⟩

/-- The memory loop touches only the memory stores, and preserves all
memory lengths. -/
theorem initialize_memories_env :
    ∀ (l : List MemoryInitializer) (inst : Instance),
      (initialize_memories inst l).fst.module = inst.module ∧
      (initialize_memories inst l).fst.tables = inst.tables ∧
      (initialize_memories inst l).fst.imported_tables = inst.imported_tables ∧
      (initialize_memories inst l).fst.defined_globals = inst.defined_globals ∧
      (initialize_memories inst l).fst.imported_globals = inst.imported_globals ∧
      ∀ i, ((initialize_memories inst l).fst.get_memory i).current_length =
        (inst.get_memory i).current_length
  | [], inst => ⟨rfl, rfl, rfl, rfl, rfl, fun _ => rfl⟩
  | init :: rest, inst => by
    cases hs : get_memory_init_start init inst with
    | error e =>
      rw [initialize_memories_cons_err hs]
      exact ⟨rfl, rfl, rfl, rfl, rfl, fun _ => rfl⟩
    | ok s =>
      by_cases hfit : s + init.data.length ≤
          (inst.get_memory init.memory_index).current_length
      · rw [initialize_memories_cons_ok hs hfit]
        obtain ⟨h1, h2, h3, h4, h5, h6⟩ := initialize_memories_env rest
          (inst.set_memory init.memory_index
            ⟨writeAt (inst.get_memory init.memory_index).data s init.data⟩)
        obtain ⟨e1, e2, e3, e4, e5⟩ := set_memory_env inst init.memory_index
          ⟨writeAt (inst.get_memory init.memory_index).data s init.data⟩
        have hms : (⟨writeAt (inst.get_memory init.memory_index).data s
            init.data⟩ : Memory).current_length =
            (inst.get_memory init.memory_index).current_length := by
          simp [Memory.current_length, writeAt_length]
        exact ⟨h1.trans e1, h2.trans e2, h3.trans e3, h4.trans e4, h5.trans e5,
          fun i => (h6 i).trans
            (get_memory_length_set_memory inst init.memory_index _ hms i)⟩
      · rw [initialize_memories_cons_oob hs hfit]
        exact ⟨rfl, rfl, rfl, rfl, rfl, fun _ => rfl⟩

/-- The paged loop touches only the defined memories. -/
theorem initialize_paged_list_env :
    ∀ (map : List (List (Option (List Nat)))) (inst : Instance) (i0 : Nat),
      (initialize_paged_list inst i0 map).module = inst.module ∧
      (initialize_paged_list inst i0 map).tables = inst.tables ∧
      (initialize_paged_list inst i0 map).imported_tables = inst.imported_tables ∧
      (initialize_paged_list inst i0 map).defined_globals = inst.defined_globals ∧
      (initialize_paged_list inst i0 map).imported_globals = inst.imported_globals ∧
      (initialize_paged_list inst i0 map).imported_memories = inst.imported_memories
  | [], inst, i0 => ⟨rfl, rfl, rfl, rfl, rfl, rfl⟩
  | pages :: rest, inst, i0 => by
    simp only [initialize_paged_list]
    obtain ⟨h1, h2, h3, h4, h5, h6⟩ := initialize_paged_list_env rest
      (inst.set_defined_memory i0 ⟨copy_pages_list (inst.memory i0).data 0 pages⟩)
      (i0 + 1)
    exact ⟨h1, h2, h3, h4, h5, h6⟩

/-- Base resolution for tables only reads the module and the globals. -/
theorem get_table_init_start_congr {inst inst2 : Instance} (init : TableInitializer)
    (hm : inst2.module = inst.module)
    (hd : inst2.defined_globals = inst.defined_globals)
    (hi : inst2.imported_globals = inst.imported_globals) :
    get_table_init_start init inst2 = get_table_init_start init inst := by
  unfold get_table_init_start Instance.global_bits
  rw [hm, hd, hi]

/-- Base resolution for memories only reads the module and the globals. -/
theorem get_memory_init_start_congr {inst inst2 : Instance} (init : MemoryInitializer)
    (hm : inst2.module = inst.module)
    (hd : inst2.defined_globals = inst.defined_globals)
    (hi : inst2.imported_globals = inst.imported_globals) :
    get_memory_init_start init inst2 = get_memory_init_start init inst := by
  unfold get_memory_init_start Instance.global_bits
  rw [hm, hd, hi]

/-- `table_seg_fits` transports along an environment-preserving step. -/
theorem table_seg_fits_congr {inst inst2 : Instance} (init : TableInitializer)
    (hm : inst2.module = inst.module)
    (hd : inst2.defined_globals = inst.defined_globals)
    (hi : inst2.imported_globals = inst.imported_globals)
    (hsize : ∀ i, (inst2.get_table i).size = (inst.get_table i).size) :
    table_seg_fits inst2 init ↔ table_seg_fits inst init := by
  unfold table_seg_fits
  rw [get_table_init_start_congr init hm hd hi, hsize]

/-- `table_start_ok` transports along an environment-preserving step. -/
theorem table_start_ok_congr {inst inst2 : Instance} (init : TableInitializer)
    (hm : inst2.module = inst.module)
    (hd : inst2.defined_globals = inst.defined_globals)
    (hi : inst2.imported_globals = inst.imported_globals) :
    table_start_ok inst2 init ↔ table_start_ok inst init := by
  unfold table_start_ok
  rw [get_table_init_start_congr init hm hd hi]

/-- `memory_seg_fits` transports along an environment-preserving step. -/
theorem memory_seg_fits_congr {inst inst2 : Instance} (init : MemoryInitializer)
    (hm : inst2.module = inst.module)
    (hd : inst2.defined_globals = inst.defined_globals)
    (hi : inst2.imported_globals = inst.imported_globals)
    (hsize : ∀ i, (inst2.get_memory i).current_length =
      (inst.get_memory i).current_length) :
    memory_seg_fits inst2 init ↔ memory_seg_fits inst init := by
  unfold memory_seg_fits
  rw [get_memory_init_start_congr init hm hd hi, hsize]

/-- `memory_start_ok` transports along an environment-preserving step. -/
theorem memory_start_ok_congr {inst inst2 : Instance} (init : MemoryInitializer)
    (hm : inst2.module = inst.module)
    (hd : inst2.defined_globals = inst.defined_globals)
    (hi : inst2.imported_globals = inst.imported_globals) :
    memory_start_ok inst2 init ↔ memory_start_ok inst init := by
  unfold memory_start_ok
  rw [get_memory_init_start_congr init hm hd hi]

/-- Bulk-memory table loop: some cut `k` exists such that the first `k`
segments fit and are applied, and the loop stops at `k` with a
`TableOutOfBounds` trap unless `k` covers the whole list. -/
theorem initialize_tables_list_prefix :
    ∀ (l : List TableInitializer) (inst : Instance),
      (∀ init ∈ l, table_start_ok inst init) →
      ∃ k, k ≤ l.length ∧
        (∀ i init, i < k → l.get? i = some init → table_seg_fits inst init) ∧
        (initialize_tables_list inst (l.take k)).snd = none ∧
        initialize_tables_list inst l =
          ((initialize_tables_list inst (l.take k)).fst,
            if k = l.length then none else some (.trap ⟨.tableOutOfBounds⟩)) ∧
        (∀ init, l.get? k = some init → ¬ table_seg_fits inst init)
  | [], inst, _ =>
    ⟨0, Nat.le_refl 0, fun i init hi _ => absurd hi (Nat.not_lt_zero i), rfl,
      by simp [initialize_tables_list], fun init h => by cases h⟩
  | init :: rest, inst, H => by
    obtain ⟨s, hs⟩ := H init (List.mem_cons_self init rest)
    by_cases hfit : s + init.elements.length ≤ (inst.get_table init.table_index).size
    · obtain ⟨e1, e2, e3, e4, e5⟩ := set_table_env inst init.table_index
        ⟨writeAt (inst.get_table init.table_index).elements s init.elements⟩
      have hts : (⟨writeAt (inst.get_table init.table_index).elements s
          init.elements⟩ : Table).size = (inst.get_table init.table_index).size := by
        simp [Table.size, writeAt_length]
      have hsz := get_table_size_set_table inst init.table_index _ hts
      have H2 : ∀ init2 ∈ rest, table_start_ok (inst.set_table init.table_index
          ⟨writeAt (inst.get_table init.table_index).elements s init.elements⟩) init2 :=
        fun init2 h2 =>
          (table_start_ok_congr init2 e1 e4 e5).mpr (H init2 (List.mem_cons_of_mem _ h2))
      obtain ⟨k, hk, hfits, hpre, heq, hbad⟩ := initialize_tables_list_prefix rest _ H2
      refine ⟨k + 1, by simpa using Nat.succ_le_succ hk, ?_, ?_, ?_, ?_⟩
      · intro i init2 hi hget
        cases i with
        | zero =>
          obtain rfl := Option.some.inj hget
          exact ⟨s, hs, hfit⟩
        | succ i =>
          exact (table_seg_fits_congr init2 e1 e4 e5 hsz).mp
            (hfits i init2 (by omega) hget)
      · show (initialize_tables_list inst (init :: rest.take k)).snd = none
        rw [initialize_tables_list_cons_ok hs hfit]
        exact hpre
      · show initialize_tables_list inst (init :: rest) =
          ((initialize_tables_list inst (init :: rest.take k)).fst,
            if k + 1 = (init :: rest).length then none
            else some (.trap ⟨.tableOutOfBounds⟩))
        rw [initialize_tables_list_cons_ok hs hfit,
          initialize_tables_list_cons_ok hs hfit, heq]
        simp only [List.length_cons]
        by_cases hkl : k = rest.length
        · rw [if_pos hkl, if_pos (by omega)]
        · rw [if_neg hkl, if_neg (by omega)]
      · intro init2 hget
        intro hcontra
        exact hbad init2 hget ((table_seg_fits_congr init2 e1 e4 e5 hsz).mpr hcontra)
    · refine ⟨0, Nat.zero_le _, fun i init2 hi _ => absurd hi (Nat.not_lt_zero i),
        rfl, ?_, ?_⟩
      · rw [initialize_tables_list_cons_oob hs hfit]
        simp [initialize_tables_list]
      · intro init2 hget
        obtain rfl := Option.some.inj hget
        rintro ⟨s2, hs2, hle⟩
        rw [hs] at hs2
        exact hfit (Except.ok.inj hs2 ▸ hle)

/-- Bulk-memory memory loop: some cut `k` exists such that the first `k`
segments fit and are applied, and the loop stops at `k` with a
`HeapOutOfBounds` trap unless `k` covers the whole list. -/
theorem initialize_memories_prefix :
    ∀ (l : List MemoryInitializer) (inst : Instance),
      (∀ init ∈ l, memory_start_ok inst init) →
      ∃ k, k ≤ l.length ∧
        (∀ i init, i < k → l.get? i = some init → memory_seg_fits inst init) ∧
        (initialize_memories inst (l.take k)).snd = none ∧
        initialize_memories inst l =
          ((initialize_memories inst (l.take k)).fst,
            if k = l.length then none else some (.trap ⟨.heapOutOfBounds⟩)) ∧
        (∀ init, l.get? k = some init → ¬ memory_seg_fits inst init)
  | [], inst, _ =>
    ⟨0, Nat.le_refl 0, fun i init hi _ => absurd hi (Nat.not_lt_zero i), rfl,
      by simp [initialize_memories], fun init h => by cases h⟩
  | init :: rest, inst, H => by
    obtain ⟨s, hs⟩ := H init (List.mem_cons_self init rest)
    by_cases hfit : s + init.data.length ≤
        (inst.get_memory init.memory_index).current_length
    · obtain ⟨e1, e2, e3, e4, e5⟩ := set_memory_env inst init.memory_index
        ⟨writeAt (inst.get_memory init.memory_index).data s init.data⟩
      have hms : (⟨writeAt (inst.get_memory init.memory_index).data s
          init.data⟩ : Memory).current_length =
          (inst.get_memory init.memory_index).current_length := by
        simp [Memory.current_length, writeAt_length]
      have hsz := get_memory_length_set_memory inst init.memory_index _ hms
      have H2 : ∀ init2 ∈ rest, memory_start_ok (inst.set_memory init.memory_index
          ⟨writeAt (inst.get_memory init.memory_index).data s init.data⟩) init2 :=
        fun init2 h2 =>
          (memory_start_ok_congr init2 e1 e4 e5).mpr (H init2 (List.mem_cons_of_mem _ h2))
      obtain ⟨k, hk, hfits, hpre, heq, hbad⟩ := initialize_memories_prefix rest _ H2
      refine ⟨k + 1, by simpa using Nat.succ_le_succ hk, ?_, ?_, ?_, ?_⟩
      · intro i init2 hi hget
        cases i with
        | zero =>
          obtain rfl := Option.some.inj hget
          exact ⟨s, hs, hfit⟩
        | succ i =>
          exact (memory_seg_fits_congr init2 e1 e4 e5 hsz).mp
            (hfits i init2 (by omega) hget)
      · show (initialize_memories inst (init :: rest.take k)).snd = none
        rw [initialize_memories_cons_ok hs hfit]
        exact hpre
      · show initialize_memories inst (init :: rest) =
          ((initialize_memories inst (init :: rest.take k)).fst,
            if k + 1 = (init :: rest).length then none
            else some (.trap ⟨.heapOutOfBounds⟩))
        rw [initialize_memories_cons_ok hs hfit,
          initialize_memories_cons_ok hs hfit, heq]
        simp only [List.length_cons]
        by_cases hkl : k = rest.length
        · rw [if_pos hkl, if_pos (by omega)]
        · rw [if_neg hkl, if_neg (by omega)]
      · intro init2 hget
        intro hcontra
        exact hbad init2 hget ((memory_seg_fits_congr init2 e1 e4 e5 hsz).mpr hcontra)
    · refine ⟨0, Nat.zero_le _, fun i init2 hi _ => absurd hi (Nat.not_lt_zero i),
        rfl, ?_, ?_⟩
      · rw [initialize_memories_cons_oob hs hfit]
        simp [initialize_memories]
      · intro init2 hget
        obtain rfl := Option.some.inj hget
        rintro ⟨s2, hs2, hle⟩
        rw [hs] at hs2
        exact hfit (Except.ok.inj hs2 ▸ hle)

/-- Table base resolution only fails with a `Link` error. -/
theorem get_table_init_start_err_link {init : TableInitializer} {inst : Instance}
    {e : InstantiationError} (h : get_table_init_start init inst = .error e) :
    ∃ m, e = .link m := by
  unfold get_table_init_start at h
  split at h
  · dsimp only at h
    split at h
    · cases h
    · exact ⟨_, (Except.error.inj h).symm⟩
  · cases h

/-- Memory base resolution only fails with a `Link` error. -/
theorem get_memory_init_start_err_link {init : MemoryInitializer} {inst : Instance}
    {e : InstantiationError} (h : get_memory_init_start init inst = .error e) :
    ∃ m, e = .link m := by
  unfold get_memory_init_start at h
  split at h
  · dsimp only at h
    split at h
    · cases h
    · exact ⟨_, (Except.error.inj h).symm⟩
  · cases h

/-- The table loop only fails with a `Link` error or `TableOutOfBounds`. -/
theorem initialize_tables_list_errs :
    ∀ (l : List TableInitializer) (inst : Instance) (e : InstantiationError),
      (initialize_tables_list inst l).snd = some e →
      (∃ m, e = .link m) ∨ e = .trap ⟨.tableOutOfBounds⟩
  | [], inst, e, h => Option.noConfusion h
  | init :: rest, inst, e, h => by
    cases hs : get_table_init_start init inst with
    | error e2 =>
      rw [initialize_tables_list_cons_err hs] at h
      obtain rfl := Option.some.inj h
      exact Or.inl (get_table_init_start_err_link hs)
    | ok s =>
      by_cases hfit : s + init.elements.length ≤ (inst.get_table init.table_index).size
      · rw [initialize_tables_list_cons_ok hs hfit] at h
        exact initialize_tables_list_errs rest _ e h
      · rw [initialize_tables_list_cons_oob hs hfit] at h
        obtain rfl := Option.some.inj h
        exact Or.inr rfl

/-- The memory loop only fails with a `Link` error or `HeapOutOfBounds`. -/
theorem initialize_memories_errs :
    ∀ (l : List MemoryInitializer) (inst : Instance) (e : InstantiationError),
      (initialize_memories inst l).snd = some e →
      (∃ m, e = .link m) ∨ e = .trap ⟨.heapOutOfBounds⟩
  | [], inst, e, h => Option.noConfusion h
  | init :: rest, inst, e, h => by
    cases hs : get_memory_init_start init inst with
    | error e2 =>
      rw [initialize_memories_cons_err hs] at h
      obtain rfl := Option.some.inj h
      exact Or.inl (get_memory_init_start_err_link hs)
    | ok s =>
      by_cases hfit : s + init.data.length ≤
          (inst.get_memory init.memory_index).current_length
      · rw [initialize_memories_cons_ok hs hfit] at h
        exact initialize_memories_errs rest _ e h
      · rw [initialize_memories_cons_oob hs hfit] at h
        obtain rfl := Option.some.inj h
        exact Or.inr rfl

/-- The strict table check passes when every segment is in bounds. -/
theorem check_table_init_bounds_list_ok :
    ∀ (l : List TableInitializer) (inst : Instance),
      (∀ init ∈ l, table_init_in_bounds inst init) →
      check_table_init_bounds_list inst l = .ok ()
  | [], _, _ => rfl
  | init :: rest, inst, H => by
    obtain ⟨s, hs, hlt, hle⟩ := H init (List.mem_cons_self init rest)
    simp only [check_table_init_bounds_list, hs, u64_checked_add]
    rw [if_pos hlt]
    show (if s + init.elements.length ≤ (inst.get_table init.table_index).size then
        check_table_init_bounds_list inst rest
      else Except.error (.link "table out of bounds: elements segment does not fit")) =
      .ok ()
    rw [if_pos hle]
    exact check_table_init_bounds_list_ok rest inst
      (fun i hi => H i (List.mem_cons_of_mem _ hi))

/-- The strict memory check passes when every segment is in bounds. -/
theorem check_memory_init_bounds_ok :
    ∀ (l : List MemoryInitializer) (inst : Instance),
      (∀ init ∈ l, memory_init_in_bounds inst init) →
      check_memory_init_bounds inst l = .ok ()
  | [], _, _ => rfl
  | init :: rest, inst, H => by
    obtain ⟨s, hs, hlt, hle⟩ := H init (List.mem_cons_self init rest)
    simp only [check_memory_init_bounds, hs, u64_checked_add]
    rw [if_pos hlt]
    show (if s + init.data.length ≤ (inst.get_memory init.memory_index).current_length then
        check_memory_init_bounds inst rest
      else Except.error (.link "memory out of bounds: data segment does not fit")) =
      .ok ()
    rw [if_pos hle]
    exact check_memory_init_bounds_ok rest inst
      (fun i hi => H i (List.mem_cons_of_mem _ hi))

/-- The strict table check reports the table message when some segment is
out of bounds (and all bases resolve). -/
theorem check_table_init_bounds_list_err :
    ∀ (l : List TableInitializer) (inst : Instance),
      (∀ init ∈ l, table_start_ok inst init) →
      (∃ init ∈ l, ¬ table_init_in_bounds inst init) →
      check_table_init_bounds_list inst l =
        .error (.link "table out of bounds: elements segment does not fit")
  | [], inst, _, hbad => by
    obtain ⟨init, hmem, -⟩ := hbad
    cases hmem
  | init :: rest, inst, H, hbad => by
    obtain ⟨s, hs⟩ := H init (List.mem_cons_self init rest)
    by_cases hok : s + init.elements.length < 2 ^ 64 ∧
        s + init.elements.length ≤ (inst.get_table init.table_index).size
    · have hbad2 : ∃ i ∈ rest, ¬ table_init_in_bounds inst i := by
        obtain ⟨i, hmem, hnb⟩ := hbad
        rcases List.mem_cons.mp hmem with rfl | hmem2
        · exact absurd ⟨s, hs, hok.1, hok.2⟩ hnb
        · exact ⟨i, hmem2, hnb⟩
      simp only [check_table_init_bounds_list, hs, u64_checked_add]
      rw [if_pos hok.1]
      show (if s + init.elements.length ≤ (inst.get_table init.table_index).size then
          check_table_init_bounds_list inst rest
        else Except.error (.link "table out of bounds: elements segment does not fit")) =
        .error (.link "table out of bounds: elements segment does not fit")
      rw [if_pos hok.2]
      exact check_table_init_bounds_list_err rest inst
        (fun i hi => H i (List.mem_cons_of_mem _ hi)) hbad2
    · by_cases hlt : s + init.elements.length < 2 ^ 64
      · have hle : ¬ s + init.elements.length ≤
            (inst.get_table init.table_index).size := fun hle => hok ⟨hlt, hle⟩
        simp only [check_table_init_bounds_list, hs, u64_checked_add]
        rw [if_pos hlt]
        show (if s + init.elements.length ≤ (inst.get_table init.table_index).size then
            check_table_init_bounds_list inst rest
          else Except.error (.link "table out of bounds: elements segment does not fit")) =
          .error (.link "table out of bounds: elements segment does not fit")
        rw [if_neg hle]
      · simp only [check_table_init_bounds_list, hs, u64_checked_add]
        rw [if_neg hlt]

/-- The strict memory check reports the memory message when some segment
is out of bounds (and all bases resolve). -/
theorem check_memory_init_bounds_err :
    ∀ (l : List MemoryInitializer) (inst : Instance),
      (∀ init ∈ l, memory_start_ok inst init) →
      (∃ init ∈ l, ¬ memory_init_in_bounds inst init) →
      check_memory_init_bounds inst l =
        .error (.link "memory out of bounds: data segment does not fit")
  | [], inst, _, hbad => by
    obtain ⟨init, hmem, -⟩ := hbad
    cases hmem
  | init :: rest, inst, H, hbad => by
    obtain ⟨s, hs⟩ := H init (List.mem_cons_self init rest)
    by_cases hok : s + init.data.length < 2 ^ 64 ∧
        s + init.data.length ≤ (inst.get_memory init.memory_index).current_length
    · have hbad2 : ∃ i ∈ rest, ¬ memory_init_in_bounds inst i := by
        obtain ⟨i, hmem, hnb⟩ := hbad
        rcases List.mem_cons.mp hmem with rfl | hmem2
        · exact absurd ⟨s, hs, hok.1, hok.2⟩ hnb
        · exact ⟨i, hmem2, hnb⟩
      simp only [check_memory_init_bounds, hs, u64_checked_add]
      rw [if_pos hok.1]
      show (if s + init.data.length ≤ (inst.get_memory init.memory_index).current_length then
          check_memory_init_bounds inst rest
        else Except.error (.link "memory out of bounds: data segment does not fit")) =
        .error (.link "memory out of bounds: data segment does not fit")
      rw [if_pos hok.2]
      exact check_memory_init_bounds_err rest inst
        (fun i hi => H i (List.mem_cons_of_mem _ hi)) hbad2
    · by_cases hlt : s + init.data.length < 2 ^ 64
      · have hle : ¬ s + init.data.length ≤
            (inst.get_memory init.memory_index).current_length := fun hle => hok ⟨hlt, hle⟩
        simp only [check_memory_init_bounds, hs, u64_checked_add]
        rw [if_pos hlt]
        show (if s + init.data.length ≤ (inst.get_memory init.memory_index).current_length then
            check_memory_init_bounds inst rest
          else Except.error (.link "memory out of bounds: data segment does not fit")) =
          .error (.link "memory out of bounds: data segment does not fit")
        rw [if_neg hle]
      · simp only [check_memory_init_bounds, hs, u64_checked_add]
        rw [if_neg hlt]

/-- The strict table check only fails with a `Link` error. -/
theorem check_table_init_bounds_list_err_link :
    ∀ (l : List TableInitializer) (inst : Instance) (e : InstantiationError),
      check_table_init_bounds_list inst l = .error e → ∃ m, e = .link m
  | [], _, _, h => by cases h
  | init :: rest, inst, e, h => by
    cases hs : get_table_init_start init inst with
    | error e2 =>
      simp only [check_table_init_bounds_list, hs] at h
      obtain rfl := Except.error.inj h
      exact get_table_init_start_err_link hs
    | ok s =>
      simp only [check_table_init_bounds_list, hs, u64_checked_add] at h
      by_cases hlt : s + init.elements.length < 2 ^ 64
      · rw [if_pos hlt] at h
        have h2 : (if s + init.elements.length ≤
              (inst.get_table init.table_index).size then
            check_table_init_bounds_list inst rest
          else Except.error
            (.link "table out of bounds: elements segment does not fit")) =
            .error e := h
        by_cases hle : s + init.elements.length ≤ (inst.get_table init.table_index).size
        · rw [if_pos hle] at h2
          exact check_table_init_bounds_list_err_link rest inst e h2
        · rw [if_neg hle] at h2
          exact ⟨_, (Except.error.inj h2).symm⟩
      · rw [if_neg hlt] at h
        have h2 : (Except.error
            (InstantiationError.link "table out of bounds: elements segment does not fit") :
            Except InstantiationError Unit) = .error e := h
        exact ⟨_, (Except.error.inj h2).symm⟩

/-- The strict memory check only fails with a `Link` error. -/
theorem check_memory_init_bounds_err_link :
    ∀ (l : List MemoryInitializer) (inst : Instance) (e : InstantiationError),
      check_memory_init_bounds inst l = .error e → ∃ m, e = .link m
  | [], _, _, h => by cases h
  | init :: rest, inst, e, h => by
    cases hs : get_memory_init_start init inst with
    | error e2 =>
      simp only [check_memory_init_bounds, hs] at h
      obtain rfl := Except.error.inj h
      exact get_memory_init_start_err_link hs
    | ok s =>
      simp only [check_memory_init_bounds, hs, u64_checked_add] at h
      by_cases hlt : s + init.data.length < 2 ^ 64
      · rw [if_pos hlt] at h
        have h2 : (if s + init.data.length ≤
              (inst.get_memory init.memory_index).current_length then
            check_memory_init_bounds inst rest
          else Except.error
            (.link "memory out of bounds: data segment does not fit")) =
            .error e := h
        by_cases hle : s + init.data.length ≤
            (inst.get_memory init.memory_index).current_length
        · rw [if_pos hle] at h2
          exact check_memory_init_bounds_err_link rest inst e h2
        · rw [if_neg hle] at h2
          exact ⟨_, (Except.error.inj h2).symm⟩
      · rw [if_neg hlt] at h
        have h2 : (Except.error
            (InstantiationError.link "memory out of bounds: data segment does not fit") :
            Except InstantiationError Unit) = .error e := h
        exact ⟨_, (Except.error.inj h2).symm⟩

/-- `check_init_bounds` only fails with a `Link` error. -/
theorem check_init_bounds_err_link {inst : Instance} {module : Module}
    {e : InstantiationError} (h : check_init_bounds inst module = .error e) :
    ∃ m, e = .link m := by
  unfold check_init_bounds at h
  split at h
  · obtain rfl := Except.error.inj h
    exact check_table_init_bounds_list_err_link _ _ _ (by assumption)
  · split at h
    · split at h
      · exact ⟨_, (Except.error.inj h).symm⟩
      · cases h
    · exact check_memory_init_bounds_err_link _ _ _ h

/-- `set_defined_memory` through `Instance.memory`. -/
theorem memory_set_defined_memory (inst : Instance) (i k : Nat) (m : Memory) :
    (inst.set_defined_memory i m).memory k =
      if k = i ∧ i < inst.memories.length then m else inst.memory k := by
  unfold Instance.set_defined_memory Instance.memory
  dsimp only
  rw [getD_set]

/-- Memories below the running index are untouched by the paged loop. -/
theorem initialize_paged_list_memory_lt :
    ∀ (map : List (List (Option (List Nat)))) (inst : Instance) (i0 k : Nat),
      k < i0 → (initialize_paged_list inst i0 map).memory k = inst.memory k
  | [], _, _, _, _ => rfl
  | pages :: rest, inst, i0, k, hk => by
    simp only [initialize_paged_list]
    rw [initialize_paged_list_memory_lt rest _ (i0 + 1) k (by omega)]
    rw [memory_set_defined_memory]
    rw [if_neg (by omega)]

/-- The paged loop replaces each mapped defined memory with its page
copies. -/
theorem initialize_paged_list_memory :
    ∀ (map : List (List (Option (List Nat)))) (inst : Instance) (i0 k : Nat),
      (initialize_paged_list inst i0 map).memory (i0 + k) =
        match map.get? k with
        | some pages => ⟨copy_pages_list (inst.memory (i0 + k)).data 0 pages⟩
        | none => inst.memory (i0 + k)
  | [], _, _, _ => rfl
  | pages :: rest, inst, i0, 0 => by
    simp only [initialize_paged_list, Nat.add_zero]
    rw [initialize_paged_list_memory_lt rest _ (i0 + 1) i0 (by omega)]
    rw [memory_set_defined_memory]
    by_cases hlen : i0 < inst.memories.length
    · rw [if_pos ⟨rfl, hlen⟩]
      rfl
    · rw [if_neg (fun hc => hlen hc.2)]
      have hm : inst.memory i0 = ⟨[]⟩ := by
        unfold Instance.memory
        rw [getD_of_length_le _ _ _ (by omega)]
      rw [hm]
      show (⟨[]⟩ : Memory) = ⟨copy_pages_list [] 0 pages⟩
      rw [copy_pages_list_nil]
  | pages :: rest, inst, i0, k + 1 => by
    simp only [initialize_paged_list]
    have hrec := initialize_paged_list_memory rest
      (inst.set_defined_memory i0 ⟨copy_pages_list (inst.memory i0).data 0 pages⟩)
      (i0 + 1) k
    have harith : i0 + 1 + k = i0 + (k + 1) := by omega
    rw [harith] at hrec
    rw [hrec]
    have hset : (inst.set_defined_memory i0
        ⟨copy_pages_list (inst.memory i0).data 0 pages⟩).memory (i0 + (k + 1)) =
        inst.memory (i0 + (k + 1)) := by
      rw [memory_set_defined_memory]
      rw [if_neg (by omega)]
    rw [hset]
    rfl

/-- Step equation: the strict check fails immediately exactly as the
bounds check fails. -/
theorem initialize_instance_strict_err {inst : Instance} {module : Module}
    {e : InstantiationError} (h : check_init_bounds inst module = .error e) :
    initialize_instance inst module false = (inst, some e) := by
  unfold initialize_instance
  rw [show (if false then (Except.ok () : Except InstantiationError Unit)
    else check_init_bounds inst module) = check_init_bounds inst module from rfl, h]

/-- Step equation: once the strict check passes, strict and bulk
initialization coincide. -/
theorem initialize_instance_strict_ok {inst : Instance} {module : Module}
    (h : check_init_bounds inst module = .ok ()) :
    initialize_instance inst module false = initialize_instance inst module true := by
  unfold initialize_instance
  rw [show (if false then (Except.ok () : Except InstantiationError Unit)
    else check_init_bounds inst module) = check_init_bounds inst module from rfl, h]
  rfl

/-- Step equation: under bulk memory a table-phase failure is final. -/
theorem initialize_instance_bulk_tables_err {inst : Instance} {module : Module}
    {instT : Instance} {e : InstantiationError}
    (ht : initialize_tables inst module = (instT, some e)) :
    initialize_instance inst module true = (instT, some e) := by
  unfold initialize_instance
  rw [ht]
  rfl

/-- Step equation: under bulk memory the segmented memory phase follows a
successful table phase. -/
theorem initialize_instance_bulk_segmented {inst : Instance} {module : Module}
    {instT : Instance} {minits : List MemoryInitializer}
    (hseg : module.memory_initialization = .segmented minits)
    (ht : initialize_tables inst module = (instT, none)) :
    initialize_instance inst module true = initialize_memories instT minits := by
  unfold initialize_instance
  rw [ht, hseg]
  rfl

/-- Step equation: under bulk memory the paged copies follow a successful
table phase, then the `out_of_bounds` flag decides the result. -/
theorem initialize_instance_bulk_paged {inst : Instance} {module : Module}
    {instT : Instance} {map : List (List (Option (List Nat)))}
    {out_of_bounds : Bool}
    (hseg : module.memory_initialization = .paged map out_of_bounds)
    (ht : initialize_tables inst module = (instT, none)) :
    initialize_instance inst module true =
      (initialize_paged_list instT 0 map,
        if out_of_bounds then some (.trap ⟨.heapOutOfBounds⟩) else none) := by
  unfold initialize_instance
  rw [ht, hseg]
  cases out_of_bounds <;> rfl

/-! Claim theorems. -/

/-- C4: storing `MAX - N` (N = 32 KiB) to the shared `stack_limit` word
makes the next prologue or loop-header check trap for every valid stack
pointer, and the handler relabels a fired stack-overflow trap as
interrupted exactly when `stack_limit` holds the interrupt sentinel. -/
theorem c4_interrupt_injection_and_relabel (interrupts : VMInterrupts) (sp : Nat)
    (hsp : sp < interrupt_sentinel) :
    stack_check_traps (interrupt interrupts) sp = true ∧
    relabel_stack_overflow (interrupt interrupts) = .interrupted ∧
    (∀ v : VMInterrupts,
      relabel_stack_overflow v = .interrupted ↔ v.stack_limit = interrupt_sentinel) := by
  refine ⟨?_, ?_, ?_⟩
  · simpa [stack_check_traps, interrupt] using hsp
  · simp [relabel_stack_overflow, interrupt]
  · intro v
    by_cases h : v.stack_limit = interrupt_sentinel <;>
      simp [relabel_stack_overflow, h]

/-- Witness for C4 at a concrete stack pointer. -/
theorem c4_interrupt_injection_and_relabel_witness :
    1000 < interrupt_sentinel ∧
    (stack_check_traps (interrupt ⟨0⟩) 1000 = true ∧
      relabel_stack_overflow (interrupt ⟨0⟩) = .interrupted ∧
      (∀ v : VMInterrupts,
        relabel_stack_overflow v = .interrupted ↔ v.stack_limit = interrupt_sentinel)) :=
  ⟨by decide, c4_interrupt_injection_and_relabel ⟨0⟩ 1000 (by decide)⟩

/-- C6: segment base resolution — with a base global the start is
`offset + value` (the global read as `u32` for tables, and as `u32` or
`u64` for 32-bit resp. 64-bit memories), with a checked add failing as
`Link("element segment global base overflows")` resp.
`Link("data segment global base overflows")`; without a base global the
start is `offset`. -/
theorem c6_segment_base_resolution (inst : Instance)
    (tinit : TableInitializer) (minit : MemoryInitializer) (b bm : Nat)
    (hb : tinit.base = some b) (hbm : minit.base = some bm) :
    (get_table_init_start tinit inst =
      if tinit.offset + as_u32 (inst.global_bits b) < 2 ^ 32 then
        .ok (tinit.offset + as_u32 (inst.global_bits b))
      else .error (.link "element segment global base overflows")) ∧
    (get_memory_init_start minit inst =
      (if minit.offset +
          (if inst.module.memory64.getD minit.memory_index false then
            as_u64 (inst.global_bits bm)
          else as_u32 (inst.global_bits bm)) < 2 ^ 64 then
        .ok (minit.offset +
          (if inst.module.memory64.getD minit.memory_index false then
            as_u64 (inst.global_bits bm)
          else as_u32 (inst.global_bits bm)))
      else .error (.link "data segment global base overflows"))) ∧
    (∀ t2 : TableInitializer, t2.base = none →
      get_table_init_start t2 inst = .ok t2.offset) ∧
    (∀ m2 : MemoryInitializer, m2.base = none →
      get_memory_init_start m2 inst = .ok m2.offset) := by
  refine ⟨?_, ?_, ?_, ?_⟩
  · unfold get_table_init_start u32_checked_add
    rw [hb]
    dsimp only
    by_cases hc : tinit.offset + as_u32 (inst.global_bits b) < 4294967296 <;> simp [hc]
  · unfold get_memory_init_start u64_checked_add
    rw [hbm]
    dsimp only
    by_cases hc : minit.offset +
        (if (inst.module.memory64[minit.memory_index]?).getD false then
          as_u64 (inst.global_bits bm)
        else as_u32 (inst.global_bits bm)) < 18446744073709551616 <;>
      simp [hc]
  · intro t2 h2
    unfold get_table_init_start
    rw [h2]
  · intro m2 h2
    unfold get_memory_init_start
    rw [h2]

/-- Witness for C6 at concrete initializers. -/
theorem c6_segment_base_resolution_witness :
    (TableInitializer.mk 0 (some 0) 7 []).base = some 0 ∧
    (MemoryInitializer.mk 0 (some 0) 9 []).base = some 0 ∧
    ((get_table_init_start (TableInitializer.mk 0 (some 0) 7 []) (emptyInstance emptyModule) =
      if (TableInitializer.mk 0 (some 0) 7 []).offset +
          as_u32 ((emptyInstance emptyModule).global_bits 0) < 2 ^ 32 then
        .ok ((TableInitializer.mk 0 (some 0) 7 []).offset +
          as_u32 ((emptyInstance emptyModule).global_bits 0))
      else .error (.link "element segment global base overflows")) ∧
    (get_memory_init_start (MemoryInitializer.mk 0 (some 0) 9 []) (emptyInstance emptyModule) =
      (if (MemoryInitializer.mk 0 (some 0) 9 []).offset +
          (if (emptyInstance emptyModule).module.memory64.getD
              (MemoryInitializer.mk 0 (some 0) 9 []).memory_index false then
            as_u64 ((emptyInstance emptyModule).global_bits 0)
          else as_u32 ((emptyInstance emptyModule).global_bits 0)) < 2 ^ 64 then
        .ok ((MemoryInitializer.mk 0 (some 0) 9 []).offset +
          (if (emptyInstance emptyModule).module.memory64.getD
              (MemoryInitializer.mk 0 (some 0) 9 []).memory_index false then
            as_u64 ((emptyInstance emptyModule).global_bits 0)
          else as_u32 ((emptyInstance emptyModule).global_bits 0)))
      else .error (.link "data segment global base overflows"))) ∧
    (∀ t2 : TableInitializer, t2.base = none →
      get_table_init_start t2 (emptyInstance emptyModule) = .ok t2.offset) ∧
    (∀ m2 : MemoryInitializer, m2.base = none →
      get_memory_init_start m2 (emptyInstance emptyModule) = .ok m2.offset)) :=
  ⟨rfl, rfl,
    c6_segment_base_resolution (emptyInstance emptyModule)
      (TableInitializer.mk 0 (some 0) 7 []) (MemoryInitializer.mk 0 (some 0) 9 []) 0 0 rfl rfl⟩

/-- C5: the synthesized signature uses the Fast convention exactly for
defined, never-possibly-exported functions; otherwise (and for indirect
calls) it uses the per-target default wasmtime convention. -/
theorem c5_calling_convention (isa : TargetIsa) (module : Module) (types : TypeTables)
    (index : Nat) (sig : Signature)
    (h : func_signature isa module types index = some sig) :
    (sig.call_conv = .fast ↔
      ∃ idx, module.defined_func_index index = some idx ∧
        idx ∉ module.possibly_exported_funcs) ∧
    (sig.call_conv ≠ .fast → wasmtime_call_conv isa = some sig.call_conv) ∧
    ((isa.default_calling_convention = some .systemV ∨
        isa.default_calling_convention = none) →
      wasmtime_call_conv isa = some .wasmtimeSystemV) ∧
    (isa.default_calling_convention = some .windowsFastcall →
      wasmtime_call_conv isa = some .wasmtimeFastcall) ∧
    (isa.default_calling_convention = some .appleAarch64 →
      wasmtime_call_conv isa = some .wasmtimeAppleAarch64) ∧
    (∀ (wasm : WasmFuncType) (isig : Signature),
      indirect_signature isa wasm = some isig →
      wasmtime_call_conv isa = some isig.call_conv) := by
  obtain ⟨cc, sig_index, wasm, hcc, hf, hw, hp⟩ := func_signature_eq h
  have hconv : sig.call_conv = cc := by rw [push_types_call_conv hp]; rfl
  unfold func_call_conv at hcc
  refine ⟨?_, ?_, ?_, ?_, ?_, ?_⟩
  · constructor
    · intro hfast
      rw [hconv] at hfast
      subst hfast
      cases hd : module.defined_func_index index with
      | none =>
        simp only [hd] at hcc
        exact absurd rfl (wasmtime_call_conv_ne_fast hcc)
      | some idx =>
        simp only [hd] at hcc
        by_cases hmem : module.possibly_exported_funcs.contains idx
        · rw [if_pos hmem] at hcc
          exact absurd rfl (wasmtime_call_conv_ne_fast hcc)
        · refine ⟨idx, rfl, fun hin => hmem ?_⟩
          simpa using hin
    · rintro ⟨idx, hd, hnot⟩
      simp only [hd] at hcc
      rw [if_neg (by simpa using hnot)] at hcc
      rw [hconv]
      exact (Option.some.inj hcc).symm
  · intro hne
    rw [hconv] at hne ⊢
    cases hd : module.defined_func_index index with
    | none => simp only [hd] at hcc; exact hcc
    | some idx =>
      simp only [hd] at hcc
      by_cases hmem : module.possibly_exported_funcs.contains idx
      · rw [if_pos hmem] at hcc; exact hcc
      · rw [if_neg hmem] at hcc
        exact absurd (Option.some.inj hcc).symm hne
  · rintro (hd | hd) <;> unfold wasmtime_call_conv <;> rw [hd]
  · intro hd; unfold wasmtime_call_conv; rw [hd]
  · intro hd; unfold wasmtime_call_conv; rw [hd]
  · intro wasm2 isig hind
    unfold indirect_signature at hind
    split at hind
    · cases hind
    · rw [push_types_call_conv hind]
      assumption

/-- Witness for C5 at a concrete ISA, module and function index. -/
theorem c5_calling_convention_witness :
    func_signature sampleIsa sigModule sigTypes 0 = some sigResult ∧
    ((sigResult.call_conv = .fast ↔
      ∃ idx, sigModule.defined_func_index 0 = some idx ∧
        idx ∉ sigModule.possibly_exported_funcs) ∧
    (sigResult.call_conv ≠ .fast → wasmtime_call_conv sampleIsa = some sigResult.call_conv) ∧
    ((sampleIsa.default_calling_convention = some .systemV ∨
        sampleIsa.default_calling_convention = none) →
      wasmtime_call_conv sampleIsa = some .wasmtimeSystemV) ∧
    (sampleIsa.default_calling_convention = some .windowsFastcall →
      wasmtime_call_conv sampleIsa = some .wasmtimeFastcall) ∧
    (sampleIsa.default_calling_convention = some .appleAarch64 →
      wasmtime_call_conv sampleIsa = some .wasmtimeAppleAarch64) ∧
    (∀ (wasm : WasmFuncType) (isig : Signature),
      indirect_signature sampleIsa wasm = some isig →
      wasmtime_call_conv sampleIsa = some isig.call_conv)) :=
  ⟨by decide, c5_calling_convention sampleIsa sigModule sigTypes 0 sigResult (by decide)⟩

/-- C8: the synthesized signature starts with the two pointer-typed
VMContext parameters (callee then caller), followed by the mapped Wasm
parameters; the returns are exactly the mapped Wasm results; and the type
mapping is the fixed one, with exception references unsupported. -/
theorem c8_abi_signature (isa : TargetIsa) (module : Module) (types : TypeTables)
    (index : Nat) (sig : Signature) (sig_index : Nat) (wasm : WasmFuncType)
    (hf : module.functions.get? index = some sig_index)
    (hw : types.wasm_signatures.get? sig_index = some wasm)
    (h : func_signature isa module types index = some sig) :
    (∃ ps, wasm.params.mapM (fun t => (value_type isa t).map AbiParam.new) = some ps ∧
      sig.params = [AbiParam.special isa.pointer_type .vmContext,
        AbiParam.new isa.pointer_type] ++ ps) ∧
    (∃ rs, wasm.returns.mapM (fun t => (value_type isa t).map AbiParam.new) = some rs ∧
      sig.returns = rs) ∧
    value_type isa .i32 = some .i32T ∧ value_type isa .i64 = some .i64T ∧
    value_type isa .f32 = some .f32T ∧ value_type isa .f64 = some .f64T ∧
    value_type isa .v128 = some .i8x16 ∧
    value_type isa .funcRef = some (reference_type isa.pointer_type) ∧
    value_type isa .externRef = some (reference_type isa.pointer_type) ∧
    value_type isa .exnRef = none := by
  obtain ⟨cc, si, w, hcc, hf2, hw2, hp⟩ := func_signature_eq h
  rw [hf] at hf2
  obtain rfl := Option.some.inj hf2
  rw [hw] at hw2
  obtain rfl := Option.some.inj hw2
  obtain ⟨ps, rs, hps, hrs, hparams, hrets⟩ := push_types_eq hp
  exact ⟨⟨ps, hps, by simpa [blank_sig] using hparams⟩,
    ⟨rs, hrs, by simpa [blank_sig] using hrets⟩,
    rfl, rfl, rfl, rfl, rfl, rfl, rfl, rfl⟩

/-- Witness for C8 at a concrete ISA, module and function index. -/
theorem c8_abi_signature_witness :
    sigModule.functions.get? 0 = some 0 ∧
    sigTypes.wasm_signatures.get? 0 = some ⟨[.i32, .f64], [.i64]⟩ ∧
    func_signature sampleIsa sigModule sigTypes 0 = some sigResult ∧
    ((∃ ps, List.mapM (fun t => (value_type sampleIsa t).map AbiParam.new)
        (WasmFuncType.mk [.i32, .f64] [.i64]).params = some ps ∧
      sigResult.params = [AbiParam.special sampleIsa.pointer_type .vmContext,
        AbiParam.new sampleIsa.pointer_type] ++ ps) ∧
    (∃ rs, List.mapM (fun t => (value_type sampleIsa t).map AbiParam.new)
        (WasmFuncType.mk [.i32, .f64] [.i64]).returns = some rs ∧
      sigResult.returns = rs) ∧
    value_type sampleIsa .i32 = some .i32T ∧ value_type sampleIsa .i64 = some .i64T ∧
    value_type sampleIsa .f32 = some .f32T ∧ value_type sampleIsa .f64 = some .f64T ∧
    value_type sampleIsa .v128 = some .i8x16 ∧
    value_type sampleIsa .funcRef = some (reference_type sampleIsa.pointer_type) ∧
    value_type sampleIsa .externRef = some (reference_type sampleIsa.pointer_type) ∧
    value_type sampleIsa .exnRef = none) :=
  ⟨by decide, by decide, by decide,
    c8_abi_signature sampleIsa sigModule sigTypes 0 sigResult 0 ⟨[.i32, .f64], [.i64]⟩
      (by decide) (by decide) (by decide)⟩

/-- C10: a defined global whose initializer is `RefNullConst` but whose
type is not a reference type makes VMContext initialization panic (there
is no error return); with only reference-typed `RefNullConst` globals that
arm always succeeds, leaving the zeroed storage. -/
theorem c10_refnull_nonref_panics (inst : Instance) (rc : Nat → Nat) (g : Global)
    (hg : g ∈ inst.module.globals.drop inst.module.num_imported_globals)
    (hinit : g.initializer = .refNullConst)
    (hty1 : g.wasm_ty ≠ .funcRef) (hty2 : g.wasm_ty ≠ .externRef) :
    initialize_vmcontext_globals inst rc = none ∧
    (∀ (inst2 : Instance) (done : List Nat) (rc2 : Nat → Nat) (g2 : Global),
      g2.initializer = .refNullConst →
      g2.wasm_ty = .funcRef ∨ g2.wasm_ty = .externRef →
      initialize_one_global inst2 done rc2 g2 = some (0, rc2)) := by
  constructor
  · refine initialize_vmcontext_globals_list_none ?_ _ _ _ hg
    intro done rc0
    unfold initialize_one_global
    rw [hinit]
    cases hty : g.wasm_ty <;>
      first
        | rfl
        | exact absurd hty hty1
        | exact absurd hty hty2
  · intro inst2 done rc2 g2 h2 hty
    unfold initialize_one_global
    rw [h2]
    rcases hty with h | h <;> rw [h]

/-- Witness for C10 at a concrete module with an `(i32, RefNullConst)`
global. -/
theorem c10_refnull_nonref_panics_witness :
    (⟨.i32, .refNullConst⟩ : Global) ∈
      c10Inst.module.globals.drop c10Inst.module.num_imported_globals ∧
    (Global.mk .i32 .refNullConst).initializer = .refNullConst ∧
    (Global.mk .i32 .refNullConst).wasm_ty ≠ .funcRef ∧
    (Global.mk .i32 .refNullConst).wasm_ty ≠ .externRef ∧
    (initialize_vmcontext_globals c10Inst (fun _ => 0) = none ∧
    (∀ (inst2 : Instance) (done : List Nat) (rc2 : Nat → Nat) (g2 : Global),
      g2.initializer = .refNullConst →
      g2.wasm_ty = .funcRef ∨ g2.wasm_ty = .externRef →
      initialize_one_global inst2 done rc2 g2 = some (0, rc2))) :=
  ⟨by decide, rfl, by decide, by decide,
    c10_refnull_nonref_panics c10Inst (fun _ => 0) ⟨.i32, .refNullConst⟩
      (by decide) rfl (by decide) (by decide)⟩

/-- C3: after the anyfunc table is written, the entry for each function
index carries the canonical id looked up for its declared signature index,
and its `vmctx` is the instance's own pointer exactly for defined
functions, while imported entries copy `body` and `vmctx` from the
import. -/
theorem c3_anyfunc_table (inst : Instance) (req : InstanceAllocationRequest)
    (afs : List VMCallerCheckedAnyfunc)
    (h : initialize_anyfuncs inst req = some afs)
    (hdistinct : ∀ imp ∈ req.import_functions, imp.vmctx ≠ inst.vmctx_ptr) :
    afs.length = inst.module.functions.length ∧
    ∀ index sig_index, inst.module.functions.get? index = some sig_index →
      ∃ entry, afs.get? index = some entry ∧
        req.shared_signatures.lookup sig_index = some entry.type_index ∧
        (∀ def_index, inst.module.defined_func_index index = some def_index →
          entry.vmctx = inst.vmctx_ptr ∧
          req.finished_functions.get? def_index = some entry.func_ptr) ∧
        (inst.module.defined_func_index index = none →
          ∃ imp, req.import_functions.get? index = some imp ∧
            entry.func_ptr = imp.body ∧ entry.vmctx = imp.vmctx) ∧
        (entry.vmctx = inst.vmctx_ptr ↔
          (inst.module.defined_func_index index).isSome = true) := by
  obtain ⟨hlen, hget⟩ := initialize_anyfuncs_list_get _ 0 afs h
  refine ⟨hlen, fun index sig_index hidx => ?_⟩
  have hentry := hget index
  rw [hidx] at hentry
  simp only [Option.some_bind, Nat.zero_add] at hentry
  obtain ⟨hl, -⟩ := List.get?_eq_some.mp hidx
  have hlt : index < afs.length := by rw [hlen]; exact hl
  cases he : afs.get? index with
  | none =>
    have := List.get?_eq_none.mp he
    omega
  | some entry =>
    rw [he] at hentry
    have he2 := hentry.symm
    unfold anyfunc_entry at he2
    split at he2
    · cases he2
    · rename_i ti hlk
      split at he2
      · rename_i def_index hdef
        split at he2
        · rename_i body hbody
          obtain rfl := Option.some.inj he2
          refine ⟨⟨body, ti, inst.vmctx_ptr⟩, rfl, hlk, ?_, ?_, ?_⟩
          · intro d hd
            rw [hdef] at hd
            obtain rfl := Option.some.inj hd
            exact ⟨rfl, hbody⟩
          · intro hn
            rw [hdef] at hn
            cases hn
          · simp [hdef]
        · cases he2
      · rename_i hdefn
        split at he2
        · rename_i imp himp
          obtain rfl := Option.some.inj he2
          refine ⟨⟨imp.body, ti, imp.vmctx⟩, rfl, hlk, ?_, ?_, ?_⟩
          · intro d hd
            rw [hdefn] at hd
            cases hd
          · intro _
            exact ⟨imp, himp, rfl, rfl⟩
          · constructor
            · intro hv
              exact absurd hv (hdistinct imp (mem_of_get?_eq_some _ _ _ himp))
            · intro hs
              rw [hdefn] at hs
              simp at hs
        · cases he2

/-- Witness for C3 at a concrete instance with one imported and one
defined function. -/
theorem c3_anyfunc_table_witness :
    initialize_anyfuncs c3Inst c3Req = some [⟨50, 5, 7⟩, ⟨100, 5, 1⟩] ∧
    (∀ imp ∈ c3Req.import_functions, imp.vmctx ≠ c3Inst.vmctx_ptr) ∧
    ((List.length [(⟨50, 5, 7⟩ : VMCallerCheckedAnyfunc), ⟨100, 5, 1⟩] =
        c3Inst.module.functions.length) ∧
    ∀ index sig_index, c3Inst.module.functions.get? index = some sig_index →
      ∃ entry, ([(⟨50, 5, 7⟩ : VMCallerCheckedAnyfunc), ⟨100, 5, 1⟩]).get? index =
          some entry ∧
        c3Req.shared_signatures.lookup sig_index = some entry.type_index ∧
        (∀ def_index, c3Inst.module.defined_func_index index = some def_index →
          entry.vmctx = c3Inst.vmctx_ptr ∧
          c3Req.finished_functions.get? def_index = some entry.func_ptr) ∧
        (c3Inst.module.defined_func_index index = none →
          ∃ imp, c3Req.import_functions.get? index = some imp ∧
            entry.func_ptr = imp.body ∧ entry.vmctx = imp.vmctx) ∧
        (entry.vmctx = c3Inst.vmctx_ptr ↔
          (c3Inst.module.defined_func_index index).isSome = true)) :=
  ⟨by decide, by decide,
    c3_anyfunc_table c3Inst c3Req [⟨50, 5, 7⟩, ⟨100, 5, 1⟩] (by decide) (by decide)⟩

/-- C7: each defined global is zeroed then initialized: constants store
their bit patterns (into the zeroed storage), `GetGlobal` copies the raw
source bits (from an earlier defined global or an imported one) except
that an externref target clones the reference and bumps its reference
count, `RefFunc f` stores the address of entry `f` of the anyfunc table,
and `RefNullConst` leaves the storage zero. -/
theorem c7_global_initialization (inst : Instance) (rc : Nat → Nat)
    (defs : List Nat) (rc2 : Nat → Nat)
    (h : initialize_vmcontext_globals inst rc = some (defs, rc2)) :
    defs.length = (inst.module.globals.drop inst.module.num_imported_globals).length ∧
    (∀ j g, (inst.module.globals.drop inst.module.num_imported_globals).get? j = some g →
      (∀ x, g.initializer = .i32Const x → defs.get? j = some (x % 2 ^ 32)) ∧
      (∀ x, g.initializer = .i64Const x → defs.get? j = some (x % 2 ^ 64)) ∧
      (∀ x, g.initializer = .f32Const x → defs.get? j = some (x % 2 ^ 32)) ∧
      (∀ x, g.initializer = .f64Const x → defs.get? j = some (x % 2 ^ 64)) ∧
      (∀ x, g.initializer = .v128Const x → defs.get? j = some (x % 2 ^ 128)) ∧
      (g.initializer = .refNullConst → defs.get? j = some 0) ∧
      (∀ f, g.initializer = .refFunc f →
        f < inst.module.functions.length ∧
        defs.get? j = some ((inst.anyfunc_base + f) % 2 ^ 64)) ∧
      (∀ y, g.initializer = .getGlobal y →
        ∃ src,
          (match inst.module.defined_global_index y with
            | some def_y => def_y < j ∧ defs.get? def_y = some src
            | none => inst.imported_globals.get? y = some src) ∧
          defs.get? j = some (if g.wasm_ty = .externRef then src % 2 ^ 64 else src))) ∧
    (∀ (done : List Nat) (rc0 : Nat → Nat) (g2 : Global) (y src : Nat),
      g2.initializer = .getGlobal y → g2.wasm_ty = .externRef →
      (match inst.module.defined_global_index y with
        | some def_y => done.get? def_y
        | none => inst.imported_globals.get? y) = some src →
      ∃ bits rc1, initialize_one_global inst done rc0 g2 = some (bits, rc1) ∧
        bits = src % 2 ^ 64 ∧
        (src % 2 ^ 64 ≠ 0 → rc1 (src % 2 ^ 64) = rc0 (src % 2 ^ 64) + 1) ∧
        (∀ i, i ≠ src % 2 ^ 64 → rc1 i = rc0 i)) ∧
    (∀ (done : List Nat) (rc0 : Nat → Nat) (g2 : Global) (y src : Nat),
      g2.initializer = .getGlobal y → g2.wasm_ty ≠ .externRef →
      (match inst.module.defined_global_index y with
        | some def_y => done.get? def_y
        | none => inst.imported_globals.get? y) = some src →
      initialize_one_global inst done rc0 g2 = some (src, rc0)) := by
  obtain ⟨post, hdefs, hlen, hsteps⟩ :=
    initialize_vmcontext_globals_list_spec _ [] rc defs rc2 h
  have hdp : defs = post := by simpa using hdefs
  subst hdp
  refine ⟨hlen, ?_, ?_, ?_⟩
  · intro j g hg
    obtain ⟨bits, rcj, rcj2, hstep, hbits⟩ := hsteps j g hg
    rw [List.nil_append] at hstep
    refine ⟨?_, ?_, ?_, ?_, ?_, ?_, ?_, ?_⟩
    · intro x hx
      simp only [initialize_one_global, hx] at hstep
      have hb : setLow32 0 x = bits := congrArg Prod.fst (Option.some.inj hstep)
      rw [hbits, ← hb]
      simp [setLow32]
    · intro x hx
      simp only [initialize_one_global, hx] at hstep
      have hb : setLow64 0 x = bits := congrArg Prod.fst (Option.some.inj hstep)
      rw [hbits, ← hb]
      simp [setLow64]
    · intro x hx
      simp only [initialize_one_global, hx] at hstep
      have hb : setLow32 0 x = bits := congrArg Prod.fst (Option.some.inj hstep)
      rw [hbits, ← hb]
      simp [setLow32]
    · intro x hx
      simp only [initialize_one_global, hx] at hstep
      have hb : setLow64 0 x = bits := congrArg Prod.fst (Option.some.inj hstep)
      rw [hbits, ← hb]
      simp [setLow64]
    · intro x hx
      simp only [initialize_one_global, hx] at hstep
      have hb : x % 2 ^ 128 = bits := congrArg Prod.fst (Option.some.inj hstep)
      rw [hbits, ← hb]
    · intro hx
      simp only [initialize_one_global, hx] at hstep
      cases hty : g.wasm_ty <;> rw [hty] at hstep <;>
        first
          | (have hb : (0 : Nat) = bits := congrArg Prod.fst (Option.some.inj hstep)
             rw [hbits, ← hb])
          | exact Option.noConfusion hstep
    · intro f hx
      by_cases hf : f < inst.module.functions.length
      · simp only [initialize_one_global, hx, Instance.get_caller_checked_anyfunc, hf,
          if_true, Option.some.injEq, Prod.mk.injEq] at hstep
        obtain ⟨hb, -⟩ := hstep
        refine ⟨hf, ?_⟩
        rw [hbits, ← hb]
        simp [setLow64]
      · simp [initialize_one_global, hx, Instance.get_caller_checked_anyfunc, hf] at hstep
    · intro y hy
      simp only [initialize_one_global, hy] at hstep
      cases hread : (match inst.module.defined_global_index y with
          | some def_y => ((defs.take j).get? def_y : Option Nat)
          | none => inst.imported_globals.get? y) with
      | none =>
        rw [hread] at hstep
        exact Option.noConfusion hstep
      | some src =>
        rw [hread] at hstep
        refine ⟨src, ?_, ?_⟩
        · cases hdy : inst.module.defined_global_index y with
          | some def_y =>
            rw [hdy] at hread
            exact get?_take_eq_some _ _ _ _ hread
          | none =>
            rw [hdy] at hread
            exact hread
        · by_cases hty : g.wasm_ty = .externRef
          · simp only [hty, Option.some.injEq, Prod.mk.injEq] at hstep
            obtain ⟨hb, -⟩ := hstep
            rw [hbits, ← hb, if_pos hty]
            simp only [setLow64, as_u64, Option.some.injEq]
            omega
          · cases hty2 : g.wasm_ty
            all_goals first
              | exact absurd hty2 hty
              | (simp only [hty2, Option.some.injEq, Prod.mk.injEq] at hstep
                 obtain ⟨hb, -⟩ := hstep
                 rw [hbits, ← hb]
                 simp)
  · intro done rc0 g2 y src h2 hty hread2
    simp only [initialize_one_global, h2, hread2, hty]
    refine ⟨_, _, rfl, ?_, ?_, ?_⟩
    · simp only [setLow64, as_u64]
      omega
    · intro h0
      show (if src % 2 ^ 64 = as_u64 src ∧ as_u64 src ≠ 0 then rc0 (src % 2 ^ 64) + 1
        else rc0 (src % 2 ^ 64)) = rc0 (src % 2 ^ 64) + 1
      exact if_pos ⟨rfl, h0⟩
    · intro i hi
      show (if i = as_u64 src ∧ as_u64 src ≠ 0 then rc0 i + 1 else rc0 i) = rc0 i
      exact if_neg (fun hand => hi hand.1)
  · intro done rc0 g2 y src h2 hty hread2
    cases hty2 : g2.wasm_ty
    all_goals first
      | exact absurd hty2 hty
      | (simp only [initialize_one_global, h2, hread2, hty2])

/-- Witness for C7 at a concrete instance with one imported and four
defined globals. -/
theorem c7_global_initialization_witness :
    initialize_vmcontext_globals c7Inst (fun _ => 0) =
      some ([7, 42, 1000, 0], fun _ => 0) ∧
    (List.length [7, 42, 1000, 0] =
      (c7Inst.module.globals.drop c7Inst.module.num_imported_globals).length ∧
    (∀ j g, (c7Inst.module.globals.drop c7Inst.module.num_imported_globals).get? j =
        some g →
      (∀ x, g.initializer = .i32Const x →
        List.get? [7, 42, 1000, 0] j = some (x % 2 ^ 32)) ∧
      (∀ x, g.initializer = .i64Const x →
        List.get? [7, 42, 1000, 0] j = some (x % 2 ^ 64)) ∧
      (∀ x, g.initializer = .f32Const x →
        List.get? [7, 42, 1000, 0] j = some (x % 2 ^ 32)) ∧
      (∀ x, g.initializer = .f64Const x →
        List.get? [7, 42, 1000, 0] j = some (x % 2 ^ 64)) ∧
      (∀ x, g.initializer = .v128Const x →
        List.get? [7, 42, 1000, 0] j = some (x % 2 ^ 128)) ∧
      (g.initializer = .refNullConst → List.get? [7, 42, 1000, 0] j = some 0) ∧
      (∀ f, g.initializer = .refFunc f →
        f < c7Inst.module.functions.length ∧
        List.get? [7, 42, 1000, 0] j = some ((c7Inst.anyfunc_base + f) % 2 ^ 64)) ∧
      (∀ y, g.initializer = .getGlobal y →
        ∃ src,
          (match c7Inst.module.defined_global_index y with
            | some def_y => def_y < j ∧ List.get? [7, 42, 1000, 0] def_y = some src
            | none => c7Inst.imported_globals.get? y = some src) ∧
          List.get? [7, 42, 1000, 0] j =
            some (if g.wasm_ty = .externRef then src % 2 ^ 64 else src))) ∧
    (∀ (done : List Nat) (rc0 : Nat → Nat) (g2 : Global) (y src : Nat),
      g2.initializer = .getGlobal y → g2.wasm_ty = .externRef →
      (match c7Inst.module.defined_global_index y with
        | some def_y => done.get? def_y
        | none => c7Inst.imported_globals.get? y) = some src →
      ∃ bits rc1, initialize_one_global c7Inst done rc0 g2 = some (bits, rc1) ∧
        bits = src % 2 ^ 64 ∧
        (src % 2 ^ 64 ≠ 0 → rc1 (src % 2 ^ 64) = rc0 (src % 2 ^ 64) + 1) ∧
        (∀ i, i ≠ src % 2 ^ 64 → rc1 i = rc0 i)) ∧
    (∀ (done : List Nat) (rc0 : Nat → Nat) (g2 : Global) (y src : Nat),
      g2.initializer = .getGlobal y → g2.wasm_ty ≠ .externRef →
      (match c7Inst.module.defined_global_index y with
        | some def_y => done.get? def_y
        | none => c7Inst.imported_globals.get? y) = some src →
      initialize_one_global c7Inst done rc0 g2 = some (src, rc0))) :=
  ⟨rfl, c7_global_initialization c7Inst (fun _ => 0) [7, 42, 1000, 0] (fun _ => 0) rfl⟩

/-- C1: without bulk memory every initializer is bounds-checked before any
mutation, failing with the per-kind `Link` message and leaving the
instance untouched; with bulk memory the segments are applied in order
(tables, then memories), the prefix before the first out-of-bounds
segment stays applied, and that segment traps. -/
theorem c1_strict_and_bulk_segments (inst : Instance) (module : Module)
    (minits : List MemoryInitializer)
    (hmod : inst.module = module)
    (hseg : module.memory_initialization = .segmented minits) :
    ((∀ init ∈ module.table_initializers, table_start_ok inst init) →
     (∀ init ∈ minits, memory_start_ok inst init) →
     (((∃ init ∈ module.table_initializers, ¬ table_init_in_bounds inst init) →
        initialize_instance inst module false =
          (inst, some (.link "table out of bounds: elements segment does not fit"))) ∧
      ((∀ init ∈ module.table_initializers, table_init_in_bounds inst init) →
       (∃ init ∈ minits, ¬ memory_init_in_bounds inst init) →
        initialize_instance inst module false =
          (inst, some (.link "memory out of bounds: data segment does not fit"))))) ∧
    ((∀ init ∈ module.table_initializers, table_start_ok inst init) →
      ∃ k, k ≤ module.table_initializers.length ∧
        (∀ i init, i < k → module.table_initializers.get? i = some init →
          table_seg_fits inst init) ∧
        (initialize_tables_list inst (module.table_initializers.take k)).snd = none ∧
        initialize_tables inst module =
          ((initialize_tables_list inst (module.table_initializers.take k)).fst,
            if k = module.table_initializers.length then none
            else some (.trap ⟨.tableOutOfBounds⟩)) ∧
        (∀ init, module.table_initializers.get? k = some init →
          ¬ table_seg_fits inst init)) ∧
    (∀ instT e, initialize_tables inst module = (instT, some e) →
      initialize_instance inst module true = (instT, some e)) ∧
    (∀ instT, initialize_tables inst module = (instT, none) →
      initialize_instance inst module true = initialize_memories instT minits ∧
      ((∀ init ∈ minits, memory_start_ok inst init) →
        ∃ k, k ≤ minits.length ∧
          (∀ i init, i < k → minits.get? i = some init → memory_seg_fits inst init) ∧
          (initialize_memories instT (minits.take k)).snd = none ∧
          initialize_memories instT minits =
            ((initialize_memories instT (minits.take k)).fst,
              if k = minits.length then none else some (.trap ⟨.heapOutOfBounds⟩)) ∧
          (∀ init, minits.get? k = some init → ¬ memory_seg_fits inst init))) := by
  refine ⟨?_, ?_, ?_, ?_⟩
  · intro hts hms
    constructor
    · intro hbadt
      have h1 := check_table_init_bounds_list_err _ inst hts hbadt
      have hchk : check_init_bounds inst module =
          .error (.link "table out of bounds: elements segment does not fit") := by
        unfold check_init_bounds check_table_init_bounds
        rw [h1]
      exact initialize_instance_strict_err hchk
    · intro htgood hbadm
      have h1 := check_table_init_bounds_list_ok _ inst htgood
      have h2 := check_memory_init_bounds_err _ inst hms hbadm
      have hchk : check_init_bounds inst module =
          .error (.link "memory out of bounds: data segment does not fit") := by
        unfold check_init_bounds check_table_init_bounds
        rw [h1, hmod, hseg]
        exact h2
      exact initialize_instance_strict_err hchk
  · exact fun hts => initialize_tables_list_prefix module.table_initializers inst hts
  · exact fun instT e ht => initialize_instance_bulk_tables_err ht
  · intro instT ht
    obtain ⟨e1, e2, e3, e4, e5, e6⟩ :=
      initialize_tables_list_env module.table_initializers inst
    have hfst : (initialize_tables_list inst module.table_initializers).fst = instT := by
      rw [show initialize_tables_list inst module.table_initializers =
        initialize_tables inst module from rfl, ht]
    rw [hfst] at e1 e2 e3 e4 e5 e6
    have hgm : ∀ i, instT.get_memory i = inst.get_memory i := by
      intro i
      unfold Instance.get_memory
      rw [e1, e2, e3]
    refine ⟨initialize_instance_bulk_segmented hseg ht, ?_⟩
    intro hms
    have hms2 : ∀ init ∈ minits, memory_start_ok instT init := fun init hi =>
      (memory_start_ok_congr init e1 e4 e5).mpr (hms init hi)
    obtain ⟨k, hk, hfits, hpre, heq, hbad⟩ := initialize_memories_prefix minits instT hms2
    refine ⟨k, hk, ?_, hpre, heq, ?_⟩
    · intro i init hi hget
      exact (memory_seg_fits_congr init e1 e4 e5 (fun i => by rw [hgm i])).mp
        (hfits i init hi hget)
    · intro init hget hcontra
      exact hbad init hget
        ((memory_seg_fits_congr init e1 e4 e5 (fun i => by rw [hgm i])).mpr hcontra)

/-- Witness for C1 at a concrete instance with one out-of-bounds element
segment. -/
theorem c1_strict_and_bulk_segments_witness :
    c1Inst.module = c1Module ∧
    c1Module.memory_initialization = .segmented [] ∧
    (((∀ init ∈ c1Module.table_initializers, table_start_ok c1Inst init) →
     (∀ init ∈ ([] : List MemoryInitializer), memory_start_ok c1Inst init) →
     (((∃ init ∈ c1Module.table_initializers, ¬ table_init_in_bounds c1Inst init) →
        initialize_instance c1Inst c1Module false =
          (c1Inst, some (.link "table out of bounds: elements segment does not fit"))) ∧
      ((∀ init ∈ c1Module.table_initializers, table_init_in_bounds c1Inst init) →
       (∃ init ∈ ([] : List MemoryInitializer), ¬ memory_init_in_bounds c1Inst init) →
        initialize_instance c1Inst c1Module false =
          (c1Inst, some (.link "memory out of bounds: data segment does not fit"))))) ∧
    ((∀ init ∈ c1Module.table_initializers, table_start_ok c1Inst init) →
      ∃ k, k ≤ c1Module.table_initializers.length ∧
        (∀ i init, i < k → c1Module.table_initializers.get? i = some init →
          table_seg_fits c1Inst init) ∧
        (initialize_tables_list c1Inst (c1Module.table_initializers.take k)).snd =
          none ∧
        initialize_tables c1Inst c1Module =
          ((initialize_tables_list c1Inst (c1Module.table_initializers.take k)).fst,
            if k = c1Module.table_initializers.length then none
            else some (.trap ⟨.tableOutOfBounds⟩)) ∧
        (∀ init, c1Module.table_initializers.get? k = some init →
          ¬ table_seg_fits c1Inst init)) ∧
    (∀ instT e, initialize_tables c1Inst c1Module = (instT, some e) →
      initialize_instance c1Inst c1Module true = (instT, some e)) ∧
    (∀ instT, initialize_tables c1Inst c1Module = (instT, none) →
      initialize_instance c1Inst c1Module true = initialize_memories instT [] ∧
      ((∀ init ∈ ([] : List MemoryInitializer), memory_start_ok c1Inst init) →
        ∃ k, k ≤ List.length ([] : List MemoryInitializer) ∧
          (∀ i init, i < k → List.get? ([] : List MemoryInitializer) i = some init →
            memory_seg_fits c1Inst init) ∧
          (initialize_memories instT (List.take k ([] : List MemoryInitializer))).snd =
            none ∧
          initialize_memories instT [] =
            ((initialize_memories instT (List.take k ([] : List MemoryInitializer))).fst,
              if k = List.length ([] : List MemoryInitializer) then none
              else some (.trap ⟨.heapOutOfBounds⟩)) ∧
          (∀ init, List.get? ([] : List MemoryInitializer) k = some init →
            ¬ memory_seg_fits c1Inst init)))) :=
  ⟨rfl, rfl, c1_strict_and_bulk_segments c1Inst c1Module [] rfl rfl⟩

/-- C9: table element segments are applied before any memory data
segment: a `HeapOutOfBounds` failure implies the table phase already
completed without error and its tables are final, and a
`TableOutOfBounds` failure implies no memory store was touched. -/
theorem c9_tables_before_memories (inst : Instance) (module : Module) (bulk : Bool)
    (inst2 : Instance) (err : Option InstantiationError)
    (h : initialize_instance inst module bulk = (inst2, err)) :
    (err = some (.trap ⟨.heapOutOfBounds⟩) →
      ∃ instT, initialize_tables inst module = (instT, none) ∧
        inst2.tables = instT.tables ∧ inst2.imported_tables = instT.imported_tables) ∧
    (err = some (.trap ⟨.tableOutOfBounds⟩) →
      inst2.memories = inst.memories ∧
      inst2.imported_memories = inst.imported_memories) := by
  unfold initialize_instance at h
  cases hchk : (if bulk then (Except.ok () : Except InstantiationError Unit)
      else check_init_bounds inst module) with
  | error e0 =>
    rw [hchk] at h
    have h2 : ((inst, some e0) : Instance × Option InstantiationError) = (inst2, err) := h
    obtain ⟨h3, h4⟩ := Prod.mk.injEq .. ▸ h2
    subst h3
    subst h4
    cases bulk with
    | true =>
      rw [if_pos rfl] at hchk
      cases hchk
    | false =>
      rw [if_neg (by simp)] at hchk
      obtain ⟨m, rfl⟩ := check_init_bounds_err_link hchk
      constructor <;> intro hc <;> simp at hc
  | ok u =>
    cases u
    rw [hchk] at h
    have hpair : initialize_tables inst module =
        ((initialize_tables inst module).fst, (initialize_tables inst module).snd) := rfl
    rw [hpair] at h
    cases hsnd : (initialize_tables inst module).snd with
    | some e0 =>
      rw [hsnd] at h
      have h2 : (((initialize_tables inst module).fst, some e0) :
          Instance × Option InstantiationError) = (inst2, err) := h
      obtain ⟨h3, h4⟩ := Prod.mk.injEq .. ▸ h2
      subst h4
      have herr := initialize_tables_list_errs module.table_initializers inst e0 hsnd
      constructor
      · intro hc
        obtain rfl := Option.some.inj hc
        rcases herr with ⟨m, hm2⟩ | hm2 <;> simp at hm2
      · intro hc
        obtain rfl := Option.some.inj hc
        obtain ⟨g1, g2, g3, g4, g5, g6⟩ :=
          initialize_tables_list_env module.table_initializers inst
        have h3x : (initialize_tables_list inst module.table_initializers).fst =
            inst2 := h3
        rw [h3x] at g2 g3
        exact ⟨g2, g3⟩
    | none =>
      rw [hsnd] at h
      have hT : initialize_tables inst module =
          ((initialize_tables inst module).fst, none) := by rw [hpair, hsnd]
      cases hmi : module.memory_initialization with
      | paged map oob =>
        rw [hmi] at h
        cases oob with
        | true =>
          have h2 : ((initialize_paged_list (initialize_tables inst module).fst 0 map,
              some (InstantiationError.trap ⟨.heapOutOfBounds⟩)) :
              Instance × Option InstantiationError) = (inst2, err) := h
          obtain ⟨h3, h4⟩ := Prod.mk.injEq .. ▸ h2
          subst h4
          obtain ⟨p1, p2, p3, p4, p5, p6⟩ :=
            initialize_paged_list_env map (initialize_tables inst module).fst 0
          constructor
          · intro hc
            refine ⟨(initialize_tables inst module).fst, hT, ?_, ?_⟩
            · rw [← h3]
              exact p2
            · rw [← h3]
              exact p3
          · intro hc
            simp at hc
        | false =>
          have h2 : ((initialize_paged_list (initialize_tables inst module).fst 0 map,
              (none : Option InstantiationError)) :
              Instance × Option InstantiationError) = (inst2, err) := h
          obtain ⟨h3, h4⟩ := Prod.mk.injEq .. ▸ h2
          subst h4
          constructor <;> intro hc <;> exact Option.noConfusion hc
      | segmented inits =>
        rw [hmi] at h
        have h2 : initialize_memories (initialize_tables inst module).fst inits =
            (inst2, err) := h
        obtain ⟨g1, g2, g3, g4, g5, g6⟩ :=
          initialize_memories_env inits (initialize_tables inst module).fst
        have hfst : (initialize_memories (initialize_tables inst module).fst
            inits).fst = inst2 := by rw [h2]
        rw [hfst] at g2 g3
        constructor
        · intro hc
          exact ⟨(initialize_tables inst module).fst, hT, g2, g3⟩
        · intro hc
          subst hc
          have hms := initialize_memories_errs inits
            (initialize_tables inst module).fst (.trap ⟨.tableOutOfBounds⟩)
            (by rw [h2])
          rcases hms with ⟨m, hm2⟩ | hm2 <;> simp at hm2

/-- Witness for C9 at a concrete instance whose only data segment traps
under bulk memory. -/
theorem c9_tables_before_memories_witness :
    initialize_instance c9Inst c9Module true =
      (c9Inst, some (.trap ⟨.heapOutOfBounds⟩)) ∧
    ((some (InstantiationError.trap ⟨.heapOutOfBounds⟩) =
        some (.trap ⟨.heapOutOfBounds⟩) →
      ∃ instT, initialize_tables c9Inst c9Module = (instT, none) ∧
        c9Inst.tables = instT.tables ∧
        c9Inst.imported_tables = instT.imported_tables) ∧
    (some (InstantiationError.trap ⟨.heapOutOfBounds⟩) =
        some (.trap ⟨.tableOutOfBounds⟩) →
      c9Inst.memories = c9Inst.memories ∧
      c9Inst.imported_memories = c9Inst.imported_memories)) :=
  ⟨by decide,
    c9_tables_before_memories c9Inst c9Module true c9Inst
      (some (.trap ⟨.heapOutOfBounds⟩)) (by decide)⟩

/-- C2 counterexample: on a paged module with the `out_of_bounds` flag
set, a call with `is_bulk_memory = false` returns the `Link` error from
the pre-check — not `Trap(HeapOutOfBounds)` — and copies no page (byte 0
stays 0 although the present page holds 170). -/
theorem c2_counterexample :
    (initialize_instance c2Inst c2Module false).snd =
      some (.link "memory out of bounds: data segment does not fit") ∧
    (initialize_instance c2Inst c2Module false).snd ≠
      some (.trap ⟨.heapOutOfBounds⟩) ∧
    ((initialize_instance c2Inst c2Module false).fst.memory 0).data.getD 0 0 = 0 ∧
    c2Page.getD 0 0 = 170 :=
  ⟨rfl, by decide, rfl, rfl⟩

/-- C2 (amended): on the paged path — reached with `is_bulk_memory = true`
after a trap-free table phase — each present page is copied verbatim to
`page_index * WASM_PAGE_SIZE` and stays observable, and after all copies
the result is `Trap(HeapOutOfBounds)` exactly when `out_of_bounds` is
set; with `is_bulk_memory = false` and the flag set, initialization
instead fails early with the `Link` error and copies nothing, while a
passing pre-check makes the strict and bulk paths agree. -/
theorem c2_paged_initialization (inst : Instance) (module : Module)
    (map : List (List (Option (List Nat)))) (out_of_bounds : Bool) (instT : Instance)
    (hmod : inst.module = module)
    (hseg : module.memory_initialization = .paged map out_of_bounds)
    (htab : initialize_tables inst module = (instT, none))
    (hpages : ∀ mi pages, map.get? mi = some pages →
      ∀ pi page, pages.get? pi = some (some page) →
        page.length = WASM_PAGE_SIZE ∧
        (pi + 1) * WASM_PAGE_SIZE ≤ (instT.memory mi).current_length) :
    (initialize_instance inst module true =
      (initialize_paged_list instT 0 map,
        if out_of_bounds then some (.trap ⟨.heapOutOfBounds⟩) else none)) ∧
    (∀ mi pages, map.get? mi = some pages →
      ∀ pi page, pages.get? pi = some (some page) →
        ∀ o, o < WASM_PAGE_SIZE →
          ((initialize_paged_list instT 0 map).memory mi).data.getD
            (pi * WASM_PAGE_SIZE + o) 0 = page.getD o 0) ∧
    (out_of_bounds = true →
      check_table_init_bounds inst module = .ok () →
      initialize_instance inst module false =
        (inst, some (.link "memory out of bounds: data segment does not fit"))) ∧
    (check_init_bounds inst module = .ok () →
      initialize_instance inst module false = initialize_instance inst module true) := by
  refine ⟨initialize_instance_bulk_paged hseg htab, ?_, ?_, ?_⟩
  · intro mi pages hmi pi page hpi o ho
    have hmem := initialize_paged_list_memory map instT 0 mi
    rw [Nat.zero_add] at hmem
    rw [hmem, hmi]
    obtain ⟨hlen, hfit⟩ := hpages mi pages hmi pi page hpi
    have := copy_pages_list_getD_hit pages (instT.memory mi).data 0 pi page o hpi hlen
      ho (by simpa using hfit)
    simpa using this
  · intro hoob htabchk
    have hchk : check_init_bounds inst module =
        .error (.link "memory out of bounds: data segment does not fit") := by
      unfold check_table_init_bounds at htabchk
      unfold check_init_bounds check_table_init_bounds
      rw [htabchk, hmod, hseg, hoob]
      rfl
    exact initialize_instance_strict_err hchk
  · exact fun hchk => initialize_instance_strict_ok hchk

/-- Witness for the amended C2 at a concrete one-page paged module. -/
theorem c2_paged_initialization_witness :
    c2Inst.module = c2Module ∧
    c2Module.memory_initialization = .paged [[some c2Page]] true ∧
    initialize_tables c2Inst c2Module = (c2Inst, none) ∧
    ((initialize_instance c2Inst c2Module true =
      (initialize_paged_list c2Inst 0 [[some c2Page]],
        if true then some (.trap ⟨.heapOutOfBounds⟩) else none)) ∧
    (∀ mi pages, List.get? [[some c2Page]] mi = some pages →
      ∀ pi page, pages.get? pi = some (some page) →
        ∀ o, o < WASM_PAGE_SIZE →
          ((initialize_paged_list c2Inst 0 [[some c2Page]]).memory mi).data.getD
            (pi * WASM_PAGE_SIZE + o) 0 = page.getD o 0) ∧
    (true = true →
      check_table_init_bounds c2Inst c2Module = .ok () →
      initialize_instance c2Inst c2Module false =
        (c2Inst, some (.link "memory out of bounds: data segment does not fit"))) ∧
    (check_init_bounds c2Inst c2Module = .ok () →
      initialize_instance c2Inst c2Module false =
        initialize_instance c2Inst c2Module true)) :=
  ⟨rfl, rfl, rfl,
    c2_paged_initialization c2Inst c2Module [[some c2Page]] true c2Inst rfl rfl rfl
      (by
        intro mi pages hmi pi page hpi
        cases mi with
        | zero =>
          obtain rfl := Option.some.inj hmi
          cases pi with
          | zero =>
            obtain rfl := Option.some.inj (Option.some.inj hpi)
            constructor
            · exact List.length_replicate ..
            · show (0 + 1) * WASM_PAGE_SIZE ≤
                (Memory.mk (List.replicate WASM_PAGE_SIZE 0)).current_length
              have hlr : (Memory.mk (List.replicate WASM_PAGE_SIZE 0)).current_length =
                  WASM_PAGE_SIZE := List.length_replicate ..
              rw [hlr]
              omega
          | succ pi => exact Option.noConfusion hpi
        | succ mi => exact Option.noConfusion hmi)⟩

end Wasmtime
